import Mathlib

/-! Timesheet backend: approval workflow and role-scoped visibility.

A shallow embedding of `src/backend/server.js` and `src/backend/middleware.js`,
and of the client's `formatDateForInput` and the state of component `App`
(`src/frontend/src/App.js`).

* Values of a JSON request body are `JsVal`; the JavaScript tests the handlers
  apply to them (`!v`, `Array.prototype.includes`) are `JsVal.falsy` and
  `includes`.
* The relational store is a pair of tables (`users`, `timesheet`) with their
  serial counters; every SQL statement of the handlers is a function on `Db`.
* A route handler maps the store and the request to a response and the store
  after the request.  A statement that raises (the `catch` branch of a handler)
  is modelled by the `fault` argument: the error the driver raises for the
  statement, if any.
* The table definitions are not part of the sources.  The input conversion of
  each column type is therefore a parameter (`Schema`); `none` is a value the
  store refuses, which makes the statement raise.
* The libraries `jsonwebtoken` and `bcryptjs` are parameters as well (`Jwt`,
  `Bcrypt`); the time of a request is an argument of the routes that sign or
  verify a token.
-/

namespace TimesheetApp

/-! ## JavaScript values -/

/-- A value of a parsed JSON body, or `undefined` for a property that is absent.
Arrays and objects are kept as their JSON text. -/
inductive JsVal where
  | undefined
  | null
  | bool (b : Bool)
  | num (q : ℚ)
  | str (s : String)
  | object (json : String)
deriving DecidableEq

/-- The JavaScript test `!v`. -/
def JsVal.falsy : JsVal → Bool
  | .undefined => true
  | .null => true
  | .bool b => !b
  | .num q => q == 0
  | .str s => s == ""
  | .object _ => false

/-- The call `xs.includes(v)` on an array of string literals: strict equality
with one of the elements. -/
def includes (xs : List String) (v : JsVal) : Bool :=
  xs.any (fun x => v == JsVal.str x)

/-! ## Rows and store -/

/-- A row of table `users`. -/
structure User where
  id : Nat
  email : String
  password : String
  full_name : Option String
  role : String
  manager_id : Option Nat
deriving DecidableEq

/-- A row of table `timesheet`.  `entry_date` is a day number, `start_time` and
`end_time` are seconds since midnight. -/
structure Timesheet where
  id : Nat
  project : String
  task_description : Option String
  entry_date : Nat
  start_time : Nat
  end_time : Nat
  user_id : Nat
  status : String
deriving DecidableEq

/-- The store behind `pool`: both tables and their serial counters. -/
structure Db where
  users : List User
  timesheet : List Timesheet
  users_id_seq : Nat
  timesheet_id_seq : Nat
deriving DecidableEq

/-- The store's side of the statements, a parameter of the model.  The input
conversions of the column types: the statement parameter `v` is stored as
`conv v`, and `none` makes the statement raise.  And the store's arithmetic:
`hours n` is the value the store computes for
`EXTRACT(EPOCH FROM (end_time - start_time)) / 3600` when the end is `n` seconds
after the start, a decimal number that the store rounds. -/
structure Schema where
  int : JsVal → Option Nat
  text : JsVal → Option String
  date : JsVal → Option Nat
  time : JsVal → Option Nat
  hours : Int → ℚ

/-- A statement parameter bound to a text column: a string is stored as it is,
any other value goes through the conversion of the column type. -/
def Schema.textParam (sch : Schema) : JsVal → Option String
  | .str s => some s
  | v => sch.text v

/-- Modelled from the spec: the default of column `status` (the table
definition is not part of the sources): "status ∈ {pending, approved,
rejected} (default pending)". -/
def defaultStatus : String := "pending"

/-- The identity `req.user` that `authMiddleware` attaches to the request. -/
structure Identity where
  id : Nat
  role : String
deriving DecidableEq

/-! ## Responses -/

/-- A row of `GET /api/entries`: all columns and `duration_hours`. -/
structure EntryRow where
  row : Timesheet
  duration_hours : ℚ
deriving DecidableEq

/-- A row of `GET /api/manager/approvals`: `t.*` and `employee_name`. -/
structure ApprovalRow where
  row : Timesheet
  employee_name : Option String
deriving DecidableEq

/-- What a handler sends. -/
inductive Body where
  | msg (m : String)
  | text (s : String)
  | entry (row : Timesheet)
  | entries (rows : List EntryRow)
  | approvals (rows : List ApprovalRow)
  | token (t : String)
deriving DecidableEq

/-- A response: status code (200 unless `res.status` is called) and body. -/
structure Response where
  status : Nat
  body : Body
deriving DecidableEq

/-- The call `pool.query`: the driver raises `fault` when there is one,
otherwise the statement runs. -/
def poolQuery {α : Type} (fault : Option String) (stmt : Except String α) : Except String α :=
  match fault with
  | some e => Except.error e
  | none => stmt

/-! ## Middleware (`middleware.js`) -/

/-- The middleware `requireRole(role)`: `none` stands for `next()`, a response
ends the request. -/
def requireRole (role : String) (user : Identity) : Option Response :=
  if user.role ≠ role then
    some ⟨403, Body.msg ("Access denied. " ++ role ++ "s only.")⟩
  else none

/-- The middleware `requireManager = requireRole('manager')`. -/
def requireManager : Identity → Option Response := requireRole "manager"

/-! ## `PUT /api/manager/approve/:id` -/

/-- The statement `UPDATE timesheet SET status = $1 WHERE id = $2 RETURNING *`:
the rows returned and the store after it. -/
def updateStatus (sch : Schema) (db : Db) (status id : JsVal) :
    Except String (List Timesheet × Db) :=
  match sch.textParam status, sch.int id with
  | some s, some n =>
    Except.ok
      ((db.timesheet.filter (fun t => t.id == n)).map (fun t => { t with status := s }),
       { db with timesheet :=
          db.timesheet.map (fun t => if t.id == n then { t with status := s } else t) })
  | _, _ => Except.error "invalid input syntax"

/-- The handler of `PUT /api/manager/approve/:id`, after the middleware:
`status` is `req.body.status`, `entryId` is `req.params.id`. -/
def approveHandler (sch : Schema) (fault : Option String) (db : Db)
    (entryId : String) (status : JsVal) : Response × Db :=
  if !(includes ["approved", "rejected"] status) then
    (⟨400, Body.msg "Invalid status."⟩, db)
  else
    match poolQuery fault (updateStatus sch db status (JsVal.str entryId)) with
    | Except.error _ => (⟨500, Body.text "Server error"⟩, db)
    | Except.ok (rows, db') =>
      match rows with
      | [] => (⟨404, Body.msg "Entry not found."⟩, db')
      | row :: _ => (⟨200, Body.entry row⟩, db')

/-- The route `PUT /api/manager/approve/:id` for an authenticated identity:
`requireManager`, then the handler. -/
def setStatus (sch : Schema) (fault : Option String) (db : Db) (user : Identity)
    (entryId : String) (status : JsVal) : Response × Db :=
  match requireManager user with
  | some res => (res, db)
  | none => approveHandler sch fault db entryId status

/-! ## `GET /api/manager/approvals` -/

/-- The rows of `timesheet t JOIN users u ON t.user_id = u.id` that satisfy
`u.manager_id = $1 AND t.status = 'pending'`, as `t.*, u.full_name AS
employee_name`, before `ORDER BY`. -/
def joinPending (db : Db) (managerId : Nat) : List ApprovalRow :=
  db.timesheet.flatMap (fun t =>
    (db.users.filter (fun u =>
        t.user_id == u.id && u.manager_id == some managerId && t.status == "pending")).map
      (fun u => ⟨t, u.full_name⟩))

/-- The order `ORDER BY t.entry_date ASC`. -/
def approvalOrder (a b : ApprovalRow) : Prop := a.row.entry_date ≤ b.row.entry_date

instance approvalOrderDecidable : DecidableRel approvalOrder :=
  fun a b => inferInstanceAs (Decidable (a.row.entry_date ≤ b.row.entry_date))

/-- The query of `GET /api/manager/approvals` with `$1 = managerId`.  Rows with
equal sort keys are returned in table order. -/
def selectPending (db : Db) (managerId : Nat) : List ApprovalRow :=
  (joinPending db managerId).insertionSort approvalOrder

/-- The handler of `GET /api/manager/approvals`, after the middleware. -/
def approvalsHandler (fault : Option String) (db : Db) (user : Identity) : Response × Db :=
  match poolQuery fault (Except.ok (selectPending db user.id)) with
  | Except.error _ => (⟨500, Body.text "Server error"⟩, db)
  | Except.ok rows => (⟨200, Body.approvals rows⟩, db)

/-- The route `GET /api/manager/approvals` for an authenticated identity:
`requireManager`, then the handler. -/
def listPendingForManager (fault : Option String) (db : Db) (user : Identity) :
    Response × Db :=
  match requireManager user with
  | some res => (res, db)
  | none => approvalsHandler fault db user

/-! ## `GET /api/entries` -/

/-- The column `EXTRACT(EPOCH FROM (end_time - start_time)) / 3600 AS
duration_hours`. -/
def durationHours (sch : Schema) (t : Timesheet) : ℚ :=
  sch.hours ((t.end_time : Int) - (t.start_time : Int))

/-- The order `ORDER BY entry_date DESC, start_time DESC`. -/
def entryOrder (a b : EntryRow) : Prop :=
  b.row.entry_date < a.row.entry_date ∨
    (a.row.entry_date = b.row.entry_date ∧ b.row.start_time ≤ a.row.start_time)

instance entryOrderDecidable : DecidableRel entryOrder :=
  fun a b => inferInstanceAs (Decidable (b.row.entry_date < a.row.entry_date ∨
    (a.row.entry_date = b.row.entry_date ∧ b.row.start_time ≤ a.row.start_time)))

/-- The query of `GET /api/entries` with `$1 = userId`.  Rows with equal sort
keys are returned in table order. -/
def selectOwn (sch : Schema) (db : Db) (userId : Nat) : List EntryRow :=
  ((db.timesheet.filter (fun t => t.user_id == userId)).map
    (fun t => ⟨t, durationHours sch t⟩)).insertionSort entryOrder

/-- The route `GET /api/entries` for an authenticated identity. -/
def listOwnEntries (sch : Schema) (fault : Option String) (db : Db) (user : Identity) :
    Response × Db :=
  match poolQuery fault (Except.ok (selectOwn sch db user.id)) with
  | Except.error _ => (⟨500, Body.text "Server Error"⟩, db)
  | Except.ok rows => (⟨200, Body.entries rows⟩, db)

/-! ## `POST /api/entries` -/

/-- The properties of `req.body` that `POST /api/entries` reads. -/
structure Draft where
  project : JsVal
  task_description : JsVal
  entry_date : JsVal
  start_time : JsVal
  end_time : JsVal
deriving DecidableEq

/-- A statement parameter bound to a text column that may be `NULL`: the driver
sends `undefined` and `null` as `NULL`. -/
def Schema.nullableText (sch : Schema) : JsVal → Option (Option String)
  | .undefined => some none
  | .null => some none
  | v => (sch.textParam v).map some

/-- The statement `INSERT INTO timesheet (project, task_description,
entry_date, start_time, end_time, user_id) VALUES ($1, ..., $6) RETURNING *`:
the new row takes the next serial id and the default status. -/
def insertTimesheet (sch : Schema) (db : Db) (d : Draft) (userId : Nat) :
    Except String (Timesheet × Db) :=
  match sch.textParam d.project, sch.nullableText d.task_description,
      sch.date d.entry_date, sch.time d.start_time, sch.time d.end_time with
  | some project, some task, some date, some start, some stop =>
    let row : Timesheet :=
      { id := db.timesheet_id_seq, project := project, task_description := task,
        entry_date := date, start_time := start, end_time := stop,
        user_id := userId, status := defaultStatus }
    Except.ok (row, { db with timesheet := db.timesheet ++ [row],
                              timesheet_id_seq := db.timesheet_id_seq + 1 })
  | _, _, _, _, _ => Except.error "invalid input syntax"

/-- The test `!project || !entry_date || !start_time || !end_time`. -/
def Draft.incomplete (d : Draft) : Bool :=
  d.project.falsy || d.entry_date.falsy || d.start_time.falsy || d.end_time.falsy

/-- The route `POST /api/entries` for an authenticated identity. -/
def createEntry (sch : Schema) (fault : Option String) (db : Db) (user : Identity)
    (d : Draft) : Response × Db :=
  if d.incomplete then
    (⟨400, Body.msg "Please enter all required fields"⟩, db)
  else
    match poolQuery fault (insertTimesheet sch db d user.id) with
    | Except.error _ => (⟨500, Body.text "Server Error"⟩, db)
    | Except.ok (row, db') => (⟨200, Body.entry row⟩, db')

/-- One `POST /api/entries` request: the driver fault (if any), the caller and
the body. -/
structure CreateCall where
  fault : Option String
  user : Identity
  draft : Draft

/-- A sequence of `createEntry` calls run from `db`: the store after the last
call, and for every call answered with a row the caller's id and that row. -/
def createAll (sch : Schema) : Db → List CreateCall → Db × List (Nat × Timesheet)
  | db, [] => (db, [])
  | db, c :: cs =>
    match createEntry sch c.fault db c.user c.draft with
    | (⟨_, Body.entry row⟩, db') =>
      let (db'', log) := createAll sch db' cs
      (db'', (c.user.id, row) :: log)
    | (_, db') => createAll sch db' cs

/-! ## Request bodies and the token check (`authMiddleware`) -/

/-- A parsed JSON object: its properties in order. -/
abbrev JsObject := List (String × JsVal)

/-- The property read `o.k`, `undefined` when the object has no such property. -/
def JsObject.get (o : JsObject) (k : String) : JsVal :=
  (o.lookup k).getD JsVal.undefined

/-- The token primitives of the library `jsonwebtoken` with the fixed secret
`JWT_SECRET`, a parameter of the model.  `sign iat ttl user` is the token
`jwt.sign({ user }, JWT_SECRET, { expiresIn: ttl })` issued at time `iat`
(seconds); `verify now t` is the `user` of the payload that
`jwt.verify(t, JWT_SECRET)` returns at time `now`, `none` when it throws. -/
structure Jwt where
  sign : Nat → Nat → Identity → String
  verify : Nat → String → Option Identity

/-- The lifetime `expiresIn: '5h'` in seconds. -/
def tokenLifetime : Nat := 5 * 3600

/-- The test `!token` on the value of `req.header('x-auth-token')`. -/
def noToken : Option String → Bool
  | none => true
  | some t => t == ""

/-- The middleware `authMiddleware`: the identity it attaches to the request
before `next()`, or the response that ends the request. -/
def authMiddleware (jwt : Jwt) (now : Nat) (token : Option String) : Except Response Identity :=
  if noToken token then
    Except.error ⟨401, Body.msg "No token, authorization denied"⟩
  else
    match jwt.verify now (token.getD "") with
    | some user => Except.ok user
    | none => Except.error ⟨401, Body.msg "Token is not valid"⟩

/-- The properties of `req.body` that `POST /api/entries` reads. -/
def draftOfBody (body : JsObject) : Draft :=
  { project := body.get "project", task_description := body.get "task_description",
    entry_date := body.get "entry_date", start_time := body.get "start_time",
    end_time := body.get "end_time" }

/-- The route `GET /api/entries`: `authMiddleware`, then the handler. -/
def getEntries (sch : Schema) (jwt : Jwt) (now : Nat) (fault : Option String) (db : Db)
    (token : Option String) : Response × Db :=
  match authMiddleware jwt now token with
  | Except.error res => (res, db)
  | Except.ok user => listOwnEntries sch fault db user

/-- The route `POST /api/entries`: `authMiddleware`, then the handler. -/
def postEntries (sch : Schema) (jwt : Jwt) (now : Nat) (fault : Option String) (db : Db)
    (token : Option String) (body : JsObject) : Response × Db :=
  match authMiddleware jwt now token with
  | Except.error res => (res, db)
  | Except.ok user => createEntry sch fault db user (draftOfBody body)

/-- The route `GET /api/manager/approvals`: `authMiddleware`, `requireManager`,
then the handler. -/
def getApprovals (jwt : Jwt) (now : Nat) (fault : Option String) (db : Db)
    (token : Option String) : Response × Db :=
  match authMiddleware jwt now token with
  | Except.error res => (res, db)
  | Except.ok user => listPendingForManager fault db user

/-- The route `PUT /api/manager/approve/:id`: `authMiddleware`,
`requireManager`, then the handler. -/
def putApprove (sch : Schema) (jwt : Jwt) (now : Nat) (fault : Option String) (db : Db)
    (token : Option String) (entryId : String) (body : JsObject) : Response × Db :=
  match authMiddleware jwt now token with
  | Except.error res => (res, db)
  | Except.ok user => setStatus sch fault db user entryId (body.get "status")

/-! ## `POST /api/auth/register` and `POST /api/auth/login` -/

/-- The password primitives of the library `bcryptjs`, a parameter of the
model: `hash password salt` and `compare password hash`, `none` when the call
throws. -/
structure Bcrypt where
  hash : JsVal → String → Option String
  compare : JsVal → String → Option Bool

/-- The statement `SELECT * FROM users WHERE email = $1`.  A `NULL` parameter
matches no row. -/
def selectUsersByEmail (sch : Schema) (db : Db) (email : JsVal) : Except String (List User) :=
  match sch.nullableText email with
  | some (some e) => Except.ok (db.users.filter (fun u => u.email == e))
  | some none => Except.ok []
  | none => Except.error "invalid input syntax"

/-- The expression `managerId || null`. -/
def orNull (v : JsVal) : JsVal := if v.falsy then JsVal.null else v

/-- A statement parameter bound to a key column that may be `NULL`. -/
def Schema.nullableInt (sch : Schema) : JsVal → Option (Option Nat)
  | .undefined => some none
  | .null => some none
  | v => (sch.int v).map some

/-- The statement `INSERT INTO users (email, password, full_name, role,
manager_id) VALUES ($1, ..., $5) RETURNING id, email, role`: the new row takes
the next serial id.  Modelled from the spec: the columns `email` and `role`
hold no `NULL` (the table definition is not part of the sources; every User
has an email and a role), so a `NULL` parameter for them makes the statement
raise. -/
def insertUser (sch : Schema) (db : Db) (email : JsVal) (hashedPassword : String)
    (fullName role managerId : JsVal) : Except String (User × Db) :=
  match sch.nullableText email, sch.nullableText fullName, sch.nullableText role,
      sch.nullableInt managerId with
  | some (some e), some name, some (some r), some manager =>
    let row : User :=
      { id := db.users_id_seq, email := e, password := hashedPassword, full_name := name,
        role := r, manager_id := manager }
    Except.ok (row, { db with users := db.users ++ [row],
                              users_id_seq := db.users_id_seq + 1 })
  | _, _, _, _ => Except.error "invalid input"

/-- The route `POST /api/auth/register`.  `salt` is the value of
`bcrypt.genSalt(10)`, `faultSelect` and `faultInsert` are the driver faults of
the two statements. -/
def register (sch : Schema) (bc : Bcrypt) (jwt : Jwt) (now : Nat) (salt : String)
    (faultSelect faultInsert : Option String) (db : Db) (body : JsObject) : Response × Db :=
  match poolQuery faultSelect (selectUsersByEmail sch db (body.get "email")) with
  | Except.error _ => (⟨500, Body.text "Server error"⟩, db)
  | Except.ok rows =>
    if rows.length > 0 then
      (⟨400, Body.msg "User already exists"⟩, db)
    else
      match bc.hash (body.get "password") salt with
      | none => (⟨500, Body.text "Server error"⟩, db)
      | some hashedPassword =>
        match poolQuery faultInsert
            (insertUser sch db (body.get "email") hashedPassword (body.get "fullName")
              (body.get "role") (orNull (body.get "managerId"))) with
        | Except.error _ => (⟨500, Body.text "Server error"⟩, db)
        | Except.ok (row, db') =>
          (⟨200, Body.token (jwt.sign now tokenLifetime ⟨row.id, row.role⟩)⟩, db')

/-- The route `POST /api/auth/login`. -/
def login (sch : Schema) (bc : Bcrypt) (jwt : Jwt) (now : Nat) (fault : Option String)
    (db : Db) (body : JsObject) : Response × Db :=
  match poolQuery fault (selectUsersByEmail sch db (body.get "email")) with
  | Except.error _ => (⟨500, Body.text "Server error"⟩, db)
  | Except.ok [] => (⟨400, Body.msg "Invalid credentials"⟩, db)
  | Except.ok (user :: _) =>
    match bc.compare (body.get "password") user.password with
    | none => (⟨500, Body.text "Server error"⟩, db)
    | some false => (⟨400, Body.msg "Invalid credentials"⟩, db)
    | some true => (⟨200, Body.token (jwt.sign now tokenLifetime ⟨user.id, user.role⟩)⟩, db)

/-- One `POST /api/auth/register` request. -/
structure RegisterCall where
  now : Nat
  salt : String
  faultSelect : Option String
  faultInsert : Option String
  body : JsObject

/-- A sequence of `register` calls run from `db`: the store after the last
call. -/
def registerAll (sch : Schema) (bc : Bcrypt) (jwt : Jwt) : Db → List RegisterCall → Db
  | db, [] => db
  | db, c :: cs =>
    registerAll sch bc jwt
      (register sch bc jwt c.now c.salt c.faultSelect c.faultInsert db c.body).2 cs

/-! ## What the client sees (`EntriesTableCard.js`) -/

/-- The columns of table `timesheet` that the statements of `server.js` name. -/
def timesheetColumns : List String :=
  ["id", "project", "task_description", "entry_date", "start_time", "end_time", "user_id",
    "status"]

/-- The property names of the JSON objects of a response body: one list per
object (`res.send` of a string sends no object). -/
def Body.properties : Body → List (List String)
  | .msg _ => [["msg"]]
  | .text _ => []
  | .entry _ => [timesheetColumns]
  | .entries rows => rows.map (fun _ => timesheetColumns ++ ["duration_hours"])
  | .approvals rows => rows.map (fun _ => timesheetColumns ++ ["employee_name"])
  | .token _ => [["token"]]

/-- The call `x.toFixed(f)` on a number below 10^21: the decimal with `f`
fraction digits nearest to `x`, the one of larger magnitude on a tie. -/
def toFixed (f : Nat) (x : ℚ) : String :=
  let n : Nat := (2 * 10 ^ f * x.num.natAbs + x.den) / (2 * x.den)
  let frac : String := toString (n % 10 ^ f)
  (if x < 0 then "-" else "") ++ toString (n / 10 ^ f) ++
    (if f = 0 then "" else
      "." ++ String.mk (List.replicate (f - frac.length) '0') ++ frac)

/-- The value `formattedDuration` of component `TimesheetEntry`:
`entry.duration_hours ? parseFloat(entry.duration_hours).toFixed(2) + ' hrs' : 'N/A'`.
`parseStr` is `parseFloat` on strings (`none` for `NaN`), a parameter; on a
number `parseFloat` returns the number. -/
def formattedDuration (parseStr : String → Option ℚ) (v : JsVal) : String :=
  if v.falsy then "N/A"
  else
    match (match v with
      | .num x => some x
      | .str s => parseStr s
      | _ => none) with
    | some x => toFixed 2 x ++ " hrs"
    | none => "NaN hrs"

/-! ## The client: `formatDateForInput` and component `App` -/

/-- The calendar date (year, month, day) of a day number counted from
1970-01-01, in the proleptic Gregorian calendar of JavaScript dates. -/
def civilFromDays (z : Int) : Int × Int × Int :=
  let z := z + 719468
  let era := z / 146097
  let doe := z - era * 146097
  let yoe := (doe - doe / 1460 + doe / 36524 - doe / 146096) / 365
  let doy := doe - (365 * yoe + yoe / 4 - yoe / 100)
  let mp := (5 * doy + 2) / 153
  let d := doy - (153 * mp + 2) / 5 + 1
  let m := if mp < 10 then mp + 3 else mp - 9
  (yoe + era * 400 + (if m ≤ 2 then 1 else 0), m, d)

/-- A number in decimal, padded with zeros on the left to `n` digits. -/
def padZeros (n : Nat) (k : Nat) : String :=
  String.mk (List.replicate (n - (toString k).length) '0') ++ toString k

/-- The year of `toISOString`: four digits, or a sign and six digits outside
0 to 9999. -/
def isoYear (y : Int) : String :=
  if 0 ≤ y ∧ y ≤ 9999 then padZeros 4 y.toNat
  else (if y < 0 then "-" else "+") ++ padZeros 6 y.natAbs

/-- The value of `new Date(ms).toISOString().split('T')[0]`: the UTC calendar
date of the instant `ms` (milliseconds since the epoch) as YYYY-MM-DD. -/
def isoDate (ms : Int) : String :=
  match civilFromDays (ms / 86400000) with
  | (y, m, d) => isoYear y ++ "-" ++ padZeros 2 m.toNat ++ "-" ++ padZeros 2 d.toNat

/-- The function `formatDateForInput` (App.js, AddEntryCard.js,
EntriesTableCard.js).  `date` is `none` for a falsy argument and `some t` for
a Date object or a string that `new Date` reads as the instant `t`;
`timezoneOffset t` is `getTimezoneOffset()` of that instant in the zone of the
browser: minutes to add to local time to get UTC. -/
def formatDateForInput (timezoneOffset : Int → Int) (date : Option Int) : String :=
  match date with
  | none => ""
  | some t => isoDate (t + |timezoneOffset t * 60000|)

/-- The calendar date of the instant `t` in the zone of the browser: the date
of local time, which is UTC minus the offset. -/
def localDate (timezoneOffset : Int → Int) (t : Int) : String :=
  isoDate (t - timezoneOffset t * 60000)

/-- What component `App` returns. -/
inductive View where
  | login
  | managerDashboard
  | employeeTimesheet
deriving DecidableEq

/-- The state of component `App` that its render branch and the handlers
`handleLogin` and `handleLogout` read or write, and the item `token` of
`localStorage`. -/
structure AppState where
  entries : List EntryRow
  isAuthenticated : Bool
  token : Option String
  userRole : JsVal
  storage : Option String
deriving DecidableEq

/-- The effect `if (token) setIsAuthenticated(true)`, run after the mount and
after every change of `token`. -/
def authEffect (s : AppState) : AppState :=
  if noToken s.token then s else { s with isAuthenticated := true }

/-- The state after the mount: the initial values of `useState`, with `token`
read from `localStorage`, then the effect. -/
def mount (storage : Option String) : AppState :=
  authEffect
    { entries := [], isAuthenticated := false, token := storage, userRole := JsVal.null,
      storage := storage }

/-- The handler `handleLogin`.  `decodeRole t` is `payload.user.role` of
`JSON.parse(atob(t.split('.')[1]))`, `none` when the decoding throws. -/
def handleLogin (decodeRole : String → Option JsVal) (s : AppState) (newToken : String) :
    AppState :=
  authEffect
    { s with
      token := some newToken, storage := some newToken, isAuthenticated := true,
      userRole := match decodeRole newToken with
        | some role => role
        | none => JsVal.str "employee" }

/-- The handler `handleLogout`. -/
def handleLogout (s : AppState) : AppState :=
  authEffect
    { s with storage := none, token := none, isAuthenticated := false,
             userRole := JsVal.null, entries := [] }

/-- The render branch of `App`. -/
def render (s : AppState) : View :=
  if !s.isAuthenticated then View.login
  else if s.userRole == JsVal.str "manager" then View.managerDashboard
  else View.employeeTimesheet

/-- A call of one of the two handlers. -/
inductive AppEvent where
  | login (newToken : String)
  | logout

/-- The state after a sequence of handler calls. -/
def runApp (decodeRole : String → Option JsVal) : AppState → List AppEvent → AppState
  | s, [] => s
  | s, AppEvent.login t :: es => runApp decodeRole (handleLogin decodeRole s t) es
  | s, AppEvent.logout :: es => runApp decodeRole (handleLogout s) es

/-! ## Stores that differ only in password hashes -/

/-- A user row without its password hash. -/
def erasePassword (u : User) : User := { u with password := "" }

/-- Two stores that differ at most in the password hashes of their users. -/
def samePublic (a b : Db) : Prop :=
  a.users.map erasePassword = b.users.map erasePassword ∧ a.timesheet = b.timesheet ∧
    a.users_id_seq = b.users_id_seq ∧ a.timesheet_id_seq = b.timesheet_id_seq

/-- The store `db` with table users replaced. -/
def withUsers (db : Db) (users : List User) : Db := { db with users := users }

/-- Two outcomes of a route with equal responses and stores that differ at most
in password hashes. -/
def sameOutcome (a b : Response × Db) : Prop := a.1 = b.1 ∧ samePublic a.2 b.2

/-- The match outcome of a login: the verdict of `bcrypt.compare` on the
password of the body and the hash of `rows[0]`, when `login` gets that far. -/
def loginMatch (sch : Schema) (bc : Bcrypt) (db : Db) (body : JsObject) :
    Option (Option Bool) :=
  match selectUsersByEmail sch db (body.get "email") with
  | Except.ok (user :: _) => some (bc.compare (body.get "password") user.password)
  | _ => none

/-! ## Abbreviations used in the statements -/

/-- The store after `UPDATE timesheet SET status = s WHERE id = n`, as
`updateStatus` computes it. -/
def afterUpdate (db : Db) (n : Nat) (s : String) : Db :=
  { db with timesheet :=
      db.timesheet.map (fun t => if t.id == n then { t with status := s } else t) }

/-- The test "`t` is pending and its owner's manager reference is `managerId`":
some user row with the owner's id has `manager_id = managerId`. -/
def pendingFor (db : Db) (managerId : Nat) (t : Timesheet) : Bool :=
  t.status == "pending" &&
    db.users.any (fun u => u.id == t.user_id && u.manager_id == some managerId)

/-- The reading of "missing or empty" for a field of the draft: the property is
absent, `null`, or the empty string. -/
def JsVal.missingOrEmpty (v : JsVal) : Bool :=
  v == JsVal.undefined || v == JsVal.null || v == JsVal.str ""

/-- The row that `insertTimesheet` builds from the converted parameters. -/
def newRow (db : Db) (userId : Nat) (project : String) (task : Option String)
    (date start stop : Nat) : Timesheet :=
  { id := db.timesheet_id_seq, project := project, task_description := task,
    entry_date := date, start_time := start, end_time := stop,
    user_id := userId, status := defaultStatus }

/-- The store after `insertTimesheet` has added `row`. -/
def afterInsert (db : Db) (row : Timesheet) : Db :=
  { db with timesheet := db.timesheet ++ [row],
            timesheet_id_seq := db.timesheet_id_seq + 1 }

/-- The store after `insertUser` has added `row`. -/
def afterRegister (db : Db) (row : User) : Db :=
  { db with users := db.users ++ [row], users_id_seq := db.users_id_seq + 1 }

/-- The row `rows[0]` of `SELECT * FROM users WHERE email = $1`: the first user
whose email is the parameter, none for a `NULL` parameter. -/
def userByEmail (db : Db) (email : Option String) : Option User :=
  match email with
  | none => none
  | some e => db.users.find? (fun u => u.email == e)

/-- The rows of `SELECT * FROM users WHERE email = $1` for a parameter the store
has read. -/
def usersWithEmail (db : Db) : Option String → List User
  | none => []
  | some e => db.users.filter (fun u => u.email == e)

/-- The invariant of the data model in the words of the spec: every role is
"employee" or "manager", and a manager reference that is present is the id of
a stored user with role "manager". -/
def hierarchyOk (db : Db) : Bool :=
  db.users.all (fun u =>
    (u.role == "employee" || u.role == "manager") &&
      match u.manager_id with
      | none => true
      | some m => db.users.any (fun v => v.id == m && v.role == "manager"))

/-- A `register` call that supplies a role the store reads as "employee" or
"manager" and a managerId the store reads as `NULL` or as the id of a stored
user with role "manager". -/
def RegisterCall.keepsHierarchy (sch : Schema) (db : Db) (c : RegisterCall) : Prop :=
  (∀ r, sch.nullableText (c.body.get "role") = some (some r) →
      r = "employee" ∨ r = "manager") ∧
    (∀ m, sch.nullableInt (orNull (c.body.get "managerId")) = some (some m) →
      ∃ v ∈ db.users, v.id = m ∧ v.role = "manager")

/-- Every call of the sequence keeps the hierarchy in the store it runs in. -/
def callsKeepHierarchy (sch : Schema) (bc : Bcrypt) (jwt : Jwt) :
    Db → List RegisterCall → Prop
  | _, [] => True
  | db, c :: cs =>
    c.keepsHierarchy sch db ∧
      callsKeepHierarchy sch bc jwt
        (register sch bc jwt c.now c.salt c.faultSelect c.faultInsert db c.body).2 cs

/-! ## A concrete schema and store for the examples -/

/-- Decimal digits to a number. -/
def digitsToNat : List Char → Option Nat
  | [] => none
  | cs => cs.foldl (fun acc c =>
      match acc with
      | some n => if c.isDigit then some (10 * n + (c.toNat - 48)) else none
      | none => none) (some 0)

/-- The quotient of `n` seconds by 3600 rounded to sixteen decimal places, half
away from zero. -/
def decimalHours (n : Int) : ℚ :=
  (if n < 0 then -1 else 1) *
    (((2 * n.natAbs * 10 ^ 16 + 3600) / 7200 : Nat) : ℚ) / 10 ^ 16

/-- A store that reads keys, dates and times as decimal numbers in a string and
divides to sixteen decimal places. -/
def decimalSchema : Schema where
  hours := decimalHours
  int := fun v => match v with
    | .str s => digitsToNat s.toList
    | _ => none
  text := fun _ => none
  date := fun v => match v with
    | .str s => digitsToNat s.toList
    | _ => none
  time := fun v => match v with
    | .str s => digitsToNat s.toList
    | _ => none

/-- Users of the examples: two managers, two employees of the first manager
and one employee without a manager. -/
def sampleUsers : List User :=
  [ ⟨1, "manager@company.com", "h1", some "Sarah Manager", "manager", none⟩,
    ⟨2, "employee1@company.com", "h2", some "Bob Employee", "employee", some 1⟩,
    ⟨3, "employee2@company.com", "h3", some "Alice Employee", "employee", some 1⟩,
    ⟨4, "manager2@company.com", "h4", some "Mike Manager", "manager", none⟩,
    ⟨5, "orphan@company.com", "h5", some "Olga Orphan", "employee", none⟩ ]

/-- A store of the examples. -/
def sampleDb : Db where
  users := sampleUsers
  timesheet :=
    [ ⟨1, "Website", some "landing page", 20, 32400, 61200, 2, "pending"⟩,
      ⟨2, "Website", none, 10, 32400, 61200, 3, "pending"⟩,
      ⟨3, "Audit", none, 15, 36000, 39600, 2, "approved"⟩,
      ⟨4, "Audit", none, 5, 36000, 39600, 5, "pending"⟩,
      ⟨5, "Audit", none, 20, 50000, 39600, 2, "rejected"⟩ ]
  users_id_seq := 6
  timesheet_id_seq := 6

/-- The first manager of the examples. -/
def sarah : Identity := ⟨1, "manager"⟩

/-- The second manager of the examples, who has no employees. -/
def mike : Identity := ⟨4, "manager"⟩

/-- An employee of the examples. -/
def bob : Identity := ⟨2, "employee"⟩

/-- Token primitives of the examples: three tokens, each valid before
`tokenLifetime`. -/
def toyJwt : Jwt where
  sign := fun _ _ user =>
    if user = ⟨2, "employee"⟩ then "bob-token"
    else if user = ⟨1, "manager"⟩ then "sarah-token"
    else if user = ⟨6, "employee"⟩ then "carol-token"
    else "other-token"
  verify := fun now t =>
    if now < tokenLifetime then
      if t = "bob-token" then some ⟨2, "employee"⟩
      else if t = "sarah-token" then some ⟨1, "manager"⟩
      else if t = "carol-token" then some ⟨6, "employee"⟩
      else none
    else none

/-- Password primitives of the examples: the hash of a string is the salt, a
dollar sign and the string; anything but a string makes the call throw. -/
def toyBcrypt : Bcrypt where
  hash := fun password salt => match password with
    | .str p => some (salt ++ "$" ++ p)
    | _ => none
  compare := fun password h => match password with
    | .str p => some (("$" ++ p).toList.isSuffixOf h.toList)
    | _ => none

/-- The client's reading of the tokens of the examples. -/
def toyDecodeRole (t : String) : Option JsVal :=
  if t = "sarah-token" then some (JsVal.str "manager")
  else if t = "bob-token" then some (JsVal.str "employee")
  else none

/-- The store of the examples with other password hashes. -/
def sampleDbRehashed : Db :=
  { sampleDb with users := sampleDb.users.map (fun u => { u with password := "x" ++ u.password }) }

/-! ## Shared lemmas -/

theorem includes_valid_iff (v : JsVal) :
    includes ["approved", "rejected"] v = true ↔
      v = JsVal.str "approved" ∨ v = JsVal.str "rejected" := by
  simp [includes]

theorem requireManager_manager (user : Identity) (hm : user.role = "manager") :
    requireManager user = none := by
  simp [requireManager, requireRole, hm]

theorem filter_cons_of_find {α : Type} (p : α → Bool) :
    ∀ (l : List α) (t : α), l.find? p = some t → ∃ rest, l.filter p = t :: rest
  | [], _, h => by simp at h
  | a :: l, t, h => by
    by_cases hp : p a = true
    · simp [List.find?, hp] at h
      subst h
      exact ⟨l.filter p, by simp [List.filter, hp]⟩
    · simp [List.find?, hp] at h
      obtain ⟨rest, hr⟩ := filter_cons_of_find p l t h
      exact ⟨rest, by simp [List.filter, hp, hr]⟩

/-- The table after `UPDATE timesheet SET status = s WHERE id = n`. -/
theorem updateStatus_ok (sch : Schema) (db : Db) (s entryId : String) (n : Nat)
    (hid : sch.int (JsVal.str entryId) = some n) :
    updateStatus sch db (JsVal.str s) (JsVal.str entryId) =
      Except.ok
        ((db.timesheet.filter (fun t => t.id == n)).map (fun t => { t with status := s }),
         afterUpdate db n s) := by
  simp [updateStatus, Schema.textParam, hid, afterUpdate]

/-- The route on a valid status, for a manager and a working driver: 404 when no row
has the id, otherwise 200 with the first updated row. -/
theorem setStatus_valid (sch : Schema) (db : Db) (user : Identity) (entryId s : String)
    (n : Nat) (hm : user.role = "manager") (hs : s = "approved" ∨ s = "rejected")
    (hid : sch.int (JsVal.str entryId) = some n) :
    setStatus sch none db user entryId (JsVal.str s) =
      match (db.timesheet.filter (fun t => t.id == n)).map (fun t => { t with status := s }) with
      | [] => (⟨404, Body.msg "Entry not found."⟩, afterUpdate db n s)
      | row :: _ => (⟨200, Body.entry row⟩, afterUpdate db n s) := by
  have hinc : includes ["approved", "rejected"] (JsVal.str s) = true := by
    rw [includes_valid_iff]
    rcases hs with h | h <;> simp [h]
  simp only [setStatus, requireManager_manager user hm, approveHandler, hinc, poolQuery,
    updateStatus_ok sch db s entryId n hid]
  rfl

theorem setStatus_found (sch : Schema) (db : Db) (user : Identity) (entryId s : String)
    (n : Nat) (t : Timesheet) (hm : user.role = "manager")
    (hs : s = "approved" ∨ s = "rejected")
    (hid : sch.int (JsVal.str entryId) = some n)
    (ht : db.timesheet.find? (fun r => r.id == n) = some t) :
    setStatus sch none db user entryId (JsVal.str s) =
      (⟨200, Body.entry { t with status := s }⟩, afterUpdate db n s) := by
  rw [setStatus_valid sch db user entryId s n hm hs hid]
  obtain ⟨rest, hr⟩ := filter_cons_of_find (fun r : Timesheet => r.id == n) db.timesheet t ht
  simp [hr]

theorem mem_afterUpdate (db : Db) (n : Nat) (s : String) (r : Timesheet) :
    r ∈ (afterUpdate db n s).timesheet ↔
      ∃ t ∈ db.timesheet, r = if t.id = n then { t with status := s } else t := by
  simp only [afterUpdate, List.mem_map, beq_iff_eq]
  constructor
  · rintro ⟨t, ht, rfl⟩
    exact ⟨t, ht, rfl⟩
  · rintro ⟨t, ht, rfl⟩
    exact ⟨t, ht, rfl⟩

theorem afterUpdate_status (db : Db) (n : Nat) (s : String) (r : Timesheet)
    (hr : r ∈ (afterUpdate db n s).timesheet) (hn : r.id = n) : r.status = s := by
  obtain ⟨t, _, rfl⟩ := (mem_afterUpdate db n s r).1 hr
  by_cases h : t.id = n
  · simp [h]
  · simp [h] at hn

theorem afterUpdate_idem (db : Db) (n : Nat) (s : String) :
    afterUpdate (afterUpdate db n s) n s = afterUpdate db n s := by
  simp only [afterUpdate, List.map_map]
  congr 1
  apply List.map_congr_left
  intro t _
  by_cases h : t.id = n <;> simp [h]

theorem map_update_of_absent (n : Nat) (s : String) :
    ∀ l : List Timesheet, (∀ r ∈ l, r.id ≠ n) →
      l.map (fun t => if t.id == n then { t with status := s } else t) = l
  | [], _ => rfl
  | a :: l, h => by
    have ha : a.id ≠ n := h a (List.mem_cons_self a l)
    have hl := map_update_of_absent n s l (fun r hr => h r (List.mem_cons_of_mem a hr))
    simp only [List.map_cons, hl]
    simp [ha]

theorem afterUpdate_overwrite (db : Db) (n : Nat) (s s2 : String) :
    afterUpdate (afterUpdate db n s) n s2 = afterUpdate db n s2 := by
  simp only [afterUpdate, List.map_map]
  congr 1
  apply List.map_congr_left
  intro t _
  by_cases h : t.id = n <;> simp [h]

theorem afterUpdate_absent (db : Db) (n : Nat) (s : String)
    (h : ∀ r ∈ db.timesheet, r.id ≠ n) : afterUpdate db n s = db := by
  cases db
  simp only [afterUpdate] at h ⊢
  congr 1
  exact map_update_of_absent n s _ h

theorem find_afterUpdate (n : Nat) (s : String) (t : Timesheet) :
    ∀ l : List Timesheet, l.find? (fun r => r.id == n) = some t →
      (l.map (fun t => if t.id == n then { t with status := s } else t)).find?
        (fun r => r.id == n) = some { t with status := s }
  | [], h => by simp at h
  | a :: l, h => by
    simp only [List.map_cons, List.find?_cons] at h ⊢
    by_cases ha : a.id = n
    · have hb : (a.id == n) = true := by simp [ha]
      simp only [hb] at h
      cases h
      simp [ha]
    · have hb : (a.id == n) = false := by simp [ha]
      simp only [hb] at h
      have ih := find_afterUpdate n s t l h
      simp only [hb, ih]
      simp [hb]

theorem filter_of_absent (n : Nat) (l : List Timesheet) (h : ∀ r ∈ l, r.id ≠ n) :
    l.filter (fun t => t.id == n) = [] := by
  rw [List.filter_eq_nil_iff]
  intro r hr
  simpa using h r hr

theorem mem_selectOwn (sch : Schema) (db : Db) (userId : Nat) (e : EntryRow) :
    e ∈ selectOwn sch db userId ↔
      e.row ∈ db.timesheet ∧ e.row.user_id = userId ∧
        e.duration_hours = durationHours sch e.row := by
  unfold selectOwn
  rw [(List.perm_insertionSort entryOrder _).mem_iff]
  simp only [List.mem_map, List.mem_filter, beq_iff_eq]
  constructor
  · rintro ⟨t, ⟨ht, hu⟩, rfl⟩
    exact ⟨ht, hu, rfl⟩
  · rintro ⟨ht, hu, hd⟩
    refine ⟨e.row, ⟨ht, hu⟩, ?_⟩
    cases e
    simp_all

/-! ## Lemmas on the approvals query -/

instance approvalOrderTotal : IsTotal ApprovalRow approvalOrder :=
  ⟨fun a b => Nat.le_total a.row.entry_date b.row.entry_date⟩

instance approvalOrderTrans : IsTrans ApprovalRow approvalOrder :=
  ⟨fun _ _ _ hab hbc => Nat.le_trans hab hbc⟩

theorem mem_joinPending (db : Db) (m : Nat) (e : ApprovalRow) :
    e ∈ joinPending db m ↔
      e.row ∈ db.timesheet ∧ e.row.status = "pending" ∧
        ∃ u ∈ db.users, u.id = e.row.user_id ∧ u.manager_id = some m ∧
          e.employee_name = u.full_name := by
  simp only [joinPending, List.mem_flatMap, List.mem_map, List.mem_filter, Bool.and_eq_true,
    beq_iff_eq]
  constructor
  · rintro ⟨t, ht, u, ⟨hu, ⟨hid, hman⟩, hst⟩, rfl⟩
    exact ⟨ht, hst, u, hu, hid.symm, hman, rfl⟩
  · rintro ⟨ht, hst, u, hu, hid, hman, hname⟩
    refine ⟨e.row, ht, u, ⟨hu, ⟨hid.symm, hman⟩, hst⟩, ?_⟩
    cases e
    simp_all

theorem mem_selectPending (db : Db) (m : Nat) (e : ApprovalRow) :
    e ∈ selectPending db m ↔ e ∈ joinPending db m :=
  (List.perm_insertionSort approvalOrder _).mem_iff

/-- With user ids a key, the join of one timesheet row with `users` has one row when some
user matches and none otherwise. -/
theorem join_one_row {β : Type} (k : Nat) (q : User → Bool) (c : β) :
    ∀ us : List User, (us.map (fun u => u.id)).Nodup →
      (us.filter (fun u => k == u.id && q u)).map (fun _ => c) =
        if us.any (fun u => u.id == k && q u) then [c] else []
  | [], _ => by simp
  | u :: us, hk => by
    simp only [List.map_cons, List.nodup_cons] at hk
    have ih := join_one_row k q c us hk.2
    by_cases hid : u.id = k
    · have hnone : ∀ v ∈ us, ¬ (v.id = k) := by
        intro v hv hvk
        exact hk.1 (List.mem_map.2 ⟨v, hv, by rw [hvk, hid]⟩)
      have hfil : us.filter (fun u => k == u.id && q u) = [] := by
        rw [List.filter_eq_nil_iff]
        intro v hv
        have hv' := hnone v hv
        simp only [Bool.and_eq_true, beq_iff_eq, not_and]
        intro h
        exact absurd h.symm hv'
      have hany : us.any (fun u => u.id == k && q u) = false := by
        rw [List.any_eq_false]
        intro v hv
        have := hnone v hv
        simp [this]
      by_cases hq : q u = true
      · simp [List.filter_cons, hid, hq, hfil]
      · simp [List.filter_cons, hid, hq, hfil, hany]
    · have hb1 : (k == u.id) = false := by
        rw [beq_eq_false_iff_ne]
        exact fun h => hid h.symm
      have hb2 : (u.id == k) = false := by
        rw [beq_eq_false_iff_ne]
        exact hid
      simp only [List.filter_cons, List.any_cons, hb1, hb2, Bool.false_and, Bool.false_or]
      exact ih

theorem joinPending_rows (db : Db) (m : Nat) (hk : (db.users.map (fun u => u.id)).Nodup) :
    (joinPending db m).map (fun e => e.row) = db.timesheet.filter (pendingFor db m) := by
  unfold joinPending
  induction db.timesheet with
  | nil => simp
  | cons t ts ih =>
    simp only [List.flatMap_cons, List.map_append, ih, List.map_map, List.filter_cons]
    have hone := join_one_row t.user_id
      (fun u => u.manager_id == some m && t.status == "pending") t db.users hk
    have hpred : (fun u : User =>
        t.user_id == u.id && u.manager_id == some m && t.status == "pending") =
        (fun u : User => t.user_id == u.id && (u.manager_id == some m && t.status == "pending")) := by
      funext u
      rw [Bool.and_assoc]
    have hmap : ((fun e : ApprovalRow => e.row) ∘ fun u : User => (⟨t, u.full_name⟩ : ApprovalRow))
        = fun _ => t := rfl
    rw [hpred, hmap, hone]
    by_cases hst : t.status = "pending"
    · simp only [pendingFor, hst, beq_self_eq_true, Bool.and_true, Bool.true_and]
      split <;> simp
    · simp [pendingFor, hst]

/-! ## `setStatus` -/

/-- C1: a status other than exactly "approved" or "rejected" (a missing one, "pending", a
differently-cased string, any other JSON value) is answered 400 "Invalid status." for every
manager identity, entry id and driver state, and the store is returned untouched. -/
theorem setStatus_invalid_status (sch : Schema) (fault : Option String) (db : Db)
    (user : Identity) (entryId : String) (status : JsVal)
    (hm : user.role = "manager")
    (h1 : status ≠ JsVal.str "approved") (h2 : status ≠ JsVal.str "rejected") :
    setStatus sch fault db user entryId status = (⟨400, Body.msg "Invalid status."⟩, db) := by
  have hinc : includes ["approved", "rejected"] status = false := by
    rw [Bool.eq_false_iff]
    intro h
    rcases (includes_valid_iff status).1 h with h | h
    · exact h1 h
    · exact h2 h
  simp [setStatus, requireManager_manager user hm, approveHandler, hinc]

/-- Witness of C1: a missing status, "pending" and "Approved", each sent by a manager for
an existing entry. -/
theorem setStatus_invalid_status_witness :
    setStatus decimalSchema none sampleDb sarah "1" JsVal.undefined
        = (⟨400, Body.msg "Invalid status."⟩, sampleDb) ∧
      setStatus decimalSchema none sampleDb sarah "1" (JsVal.str "pending")
        = (⟨400, Body.msg "Invalid status."⟩, sampleDb) ∧
      setStatus decimalSchema none sampleDb sarah "1" (JsVal.str "Approved")
        = (⟨400, Body.msg "Invalid status."⟩, sampleDb) :=
  ⟨setStatus_invalid_status decimalSchema none sampleDb sarah "1" JsVal.undefined
      (by decide) (by decide) (by decide),
    setStatus_invalid_status decimalSchema none sampleDb sarah "1" (JsVal.str "pending")
      (by decide) (by decide) (by decide),
    setStatus_invalid_status decimalSchema none sampleDb sarah "1" (JsVal.str "Approved")
      (by decide) (by decide) (by decide)⟩

/-- C2: for every manager identity, every entry id that names a row `t` and every status in
"approved", "rejected", the route answers 200 with the updated row, and the store it leaves
shows the new status on a re-read: `GET /api/entries` by the owner answers 200 with a list
that holds the row with the new status, and every listed row with that id has it. -/
theorem setStatus_success_reread (sch : Schema) (db : Db) (user owner : Identity)
    (entryId s : String) (n : Nat) (t : Timesheet)
    (hm : user.role = "manager") (hs : s = "approved" ∨ s = "rejected")
    (hid : sch.int (JsVal.str entryId) = some n)
    (ht : db.timesheet.find? (fun r => r.id == n) = some t)
    (ho : owner.id = t.user_id) :
    ∃ db', setStatus sch none db user entryId (JsVal.str s)
        = (⟨200, Body.entry { t with status := s }⟩, db') ∧
      (∀ r ∈ db'.timesheet, r.id = n → r.status = s) ∧
      ∃ rows, listOwnEntries sch none db' owner = (⟨200, Body.entries rows⟩, db') ∧
        (∃ e ∈ rows, e.row = { t with status := s }) ∧
        (∀ e ∈ rows, e.row.id = n → e.row.status = s) := by
  refine ⟨afterUpdate db n s, setStatus_found sch db user entryId s n t hm hs hid ht,
    fun r hr hn => afterUpdate_status db n s r hr hn,
    selectOwn sch (afterUpdate db n s) owner.id, rfl, ?_, ?_⟩
  · refine ⟨⟨{ t with status := s }, durationHours sch { t with status := s }⟩, ?_, rfl⟩
    rw [mem_selectOwn]
    refine ⟨?_, ho.symm, rfl⟩
    rw [mem_afterUpdate]
    refine ⟨t, List.mem_of_find?_eq_some ht, ?_⟩
    have htn : t.id = n := by simpa using List.find?_some ht
    simp [htn]
  · intro e he hn
    exact afterUpdate_status db n s e.row ((mem_selectOwn _ _ _ e).1 he).1 hn

/-- Witness of C2: the first manager approves entry 1 and its owner re-reads it. -/
theorem setStatus_success_reread_witness :
    ∃ db', setStatus decimalSchema none sampleDb sarah "1" (JsVal.str "approved")
        = (⟨200, Body.entry ⟨1, "Website", some "landing page", 20, 32400, 61200, 2,
            "approved"⟩⟩, db') ∧
      (∀ r ∈ db'.timesheet, r.id = 1 → r.status = "approved") ∧
      ∃ rows, listOwnEntries decimalSchema none db' bob = (⟨200, Body.entries rows⟩, db') ∧
        (∃ e ∈ rows, e.row = ⟨1, "Website", some "landing page", 20, 32400, 61200, 2,
            "approved"⟩) ∧
        (∀ e ∈ rows, e.row.id = 1 → e.row.status = "approved") :=
  setStatus_success_reread decimalSchema sampleDb sarah bob "1" "approved" 1
    ⟨1, "Website", some "landing page", 20, 32400, 61200, 2, "pending"⟩
    (by decide) (by decide) (by decide) (by decide) (by decide)

/-- C3: the route never looks at who the manager is. For every two manager identities the
same entry id and status give the same response and the same store; and a manager who is
the manager of no owner of the entry (no user with the owner's id has him as manager_id)
still gets 200 and the updated row for a valid status. -/
theorem setStatus_any_manager (sch : Schema) (fault : Option String) (db : Db)
    (m1 m2 : Identity) (entryId : String) (status : JsVal)
    (h1 : m1.role = "manager") (h2 : m2.role = "manager") :
    setStatus sch fault db m1 entryId status = setStatus sch fault db m2 entryId status ∧
    ∀ (s : String) (n : Nat) (t : Timesheet),
      (s = "approved" ∨ s = "rejected") →
      sch.int (JsVal.str entryId) = some n →
      db.timesheet.find? (fun r => r.id == n) = some t →
      (∀ u ∈ db.users, u.id = t.user_id → u.manager_id ≠ some m2.id) →
      setStatus sch none db m2 entryId (JsVal.str s) =
        (⟨200, Body.entry { t with status := s }⟩, afterUpdate db n s) := by
  constructor
  · simp [setStatus, requireManager_manager m1 h1, requireManager_manager m2 h2]
  · intro s n t hs hid ht _
    exact setStatus_found sch db m2 entryId s n t h2 hs hid ht

/-- Witness of C3: the second manager, who manages nobody, rejects an entry of an
employee of the first manager. -/
theorem setStatus_any_manager_witness :
    setStatus decimalSchema none sampleDb sarah "1" (JsVal.str "rejected") =
        setStatus decimalSchema none sampleDb mike "1" (JsVal.str "rejected") ∧
      setStatus decimalSchema none sampleDb mike "1" (JsVal.str "rejected") =
        (⟨200, Body.entry ⟨1, "Website", some "landing page", 20, 32400, 61200, 2,
          "rejected"⟩⟩, afterUpdate sampleDb 1 "rejected") :=
  ⟨(setStatus_any_manager decimalSchema none sampleDb sarah mike "1" (JsVal.str "rejected")
      (by decide) (by decide)).1,
    (setStatus_any_manager decimalSchema none sampleDb sarah mike "1" (JsVal.str "rejected")
      (by decide) (by decide)).2 "rejected" 1
      ⟨1, "Website", some "landing page", 20, 32400, 61200, 2, "pending"⟩
      (by decide) (by decide) (by decide) (by decide)⟩

/-- C4, as stated, fails: the path parameter "abc" matches no row of the table, the key
column cannot read it, the UPDATE raises and the route answers 500, not 404. -/
theorem setStatus_unreadable_id :
    (∀ r ∈ sampleDb.timesheet, decimalSchema.int (JsVal.str "abc") ≠ some r.id) ∧
      setStatus decimalSchema none sampleDb sarah "abc" (JsVal.str "approved") =
        (⟨500, Body.text "Server error"⟩, sampleDb) := by
  decide

/-- C4, amended: for every manager and every valid status, an entry id that the store
reads as a key no row of the table has is answered 404 "Entry not found.", and an entry
id that the store cannot read as a key is answered 500 "Server error"; the store is
unchanged in both cases. The answer is 404 in no other case. -/
theorem setStatus_not_found (sch : Schema) (db : Db) (user : Identity)
    (entryId s : String)
    (hm : user.role = "manager") (hs : s = "approved" ∨ s = "rejected") :
    (∀ n, sch.int (JsVal.str entryId) = some n → (∀ r ∈ db.timesheet, r.id ≠ n) →
      setStatus sch none db user entryId (JsVal.str s) =
        (⟨404, Body.msg "Entry not found."⟩, db)) ∧
    (sch.int (JsVal.str entryId) = none →
      setStatus sch none db user entryId (JsVal.str s) =
        (⟨500, Body.text "Server error"⟩, db)) ∧
    ((setStatus sch none db user entryId (JsVal.str s)).1.status = 404 ↔
      ∃ n, sch.int (JsVal.str entryId) = some n ∧ ∀ r ∈ db.timesheet, r.id ≠ n) := by
  have h404 : ∀ n, sch.int (JsVal.str entryId) = some n → (∀ r ∈ db.timesheet, r.id ≠ n) →
      setStatus sch none db user entryId (JsVal.str s) =
        (⟨404, Body.msg "Entry not found."⟩, db) := by
    intro n hid hno
    rw [setStatus_valid sch db user entryId s n hm hs hid, filter_of_absent n db.timesheet hno,
      afterUpdate_absent db n s hno]
    rfl
  have hinc : includes ["approved", "rejected"] (JsVal.str s) = true := by
    rw [includes_valid_iff]
    rcases hs with h | h <;> simp [h]
  have h500 : sch.int (JsVal.str entryId) = none →
      setStatus sch none db user entryId (JsVal.str s) =
        (⟨500, Body.text "Server error"⟩, db) := by
    intro hid
    have hup : updateStatus sch db (JsVal.str s) (JsVal.str entryId) =
        Except.error "invalid input syntax" := by
      simp [updateStatus, Schema.textParam, hid]
    simp only [setStatus, requireManager_manager user hm, approveHandler, hinc, Bool.not_true,
      Bool.false_eq_true, if_false, poolQuery, hup]
  refine ⟨h404, h500, ?_⟩
  cases hid : sch.int (JsVal.str entryId) with
  | none =>
    rw [h500 hid]
    constructor
    · intro h
      exact absurd (show (500 : Nat) = 404 from h) (by decide)
    · rintro ⟨n, hn, _⟩
      exact Option.noConfusion hn
  | some n =>
    cases hf : db.timesheet.filter (fun r => r.id == n) with
    | nil =>
      have hno : ∀ r ∈ db.timesheet, r.id ≠ n := by
        intro r hr hrn
        have hmem : r ∈ db.timesheet.filter (fun r => r.id == n) := by
          rw [List.mem_filter]
          exact ⟨hr, by simp [hrn]⟩
        rw [hf] at hmem
        exact absurd hmem (List.not_mem_nil r)
      rw [h404 n hid hno]
      exact ⟨fun _ => ⟨n, rfl, hno⟩, fun _ => rfl⟩
    | cons t rest =>
      have ht : t ∈ db.timesheet.filter (fun r => r.id == n) := by
        rw [hf]
        exact List.mem_cons_self t rest
      rw [List.mem_filter] at ht
      rw [setStatus_valid sch db user entryId s n hm hs hid, hf]
      constructor
      · intro h
        exact absurd (show (200 : Nat) = 404 from h) (by decide)
      · rintro ⟨k, hk, hno⟩
        have hkn : k = n := (Option.some.inj hk).symm
        exact absurd (by simpa using ht.2) (hkn ▸ hno t ht.1)

/-- Witness of C4: entry id 99 is not in the table, and "abc" is no key. -/
theorem setStatus_not_found_witness :
    setStatus decimalSchema none sampleDb sarah "99" (JsVal.str "approved") =
        (⟨404, Body.msg "Entry not found."⟩, sampleDb) ∧
      setStatus decimalSchema none sampleDb sarah "abc" (JsVal.str "rejected") =
        (⟨500, Body.text "Server error"⟩, sampleDb) :=
  ⟨(setStatus_not_found decimalSchema sampleDb sarah "99" "approved"
      (by decide) (by decide)).1 99 (by decide) (by decide),
    (setStatus_not_found decimalSchema sampleDb sarah "abc" "rejected"
      (by decide) (by decide)).2.1 (by decide)⟩

/-- C5: the status is overwritten whatever it was. For an existing entry `t` (no condition
on `t.status`) and valid statuses `s`, `s2`: the call with `s` answers 200 and leaves every
row with that id at `s`; a following call with `s2` is accepted as well and leaves the
store of a single call with `s2` (so approved -> rejected and rejected -> approved pass);
and repeating the same call gives the same response and store as the first one. -/
theorem setStatus_idempotent_overwrite (sch : Schema) (db : Db) (user : Identity)
    (entryId s s2 : String) (n : Nat) (t : Timesheet)
    (hm : user.role = "manager") (hs : s = "approved" ∨ s = "rejected")
    (hs2 : s2 = "approved" ∨ s2 = "rejected")
    (hid : sch.int (JsVal.str entryId) = some n)
    (ht : db.timesheet.find? (fun r => r.id == n) = some t) :
    setStatus sch none db user entryId (JsVal.str s) =
        (⟨200, Body.entry { t with status := s }⟩, afterUpdate db n s) ∧
      (∀ r ∈ (afterUpdate db n s).timesheet, r.id = n → r.status = s) ∧
      setStatus sch none (setStatus sch none db user entryId (JsVal.str s)).2 user entryId
          (JsVal.str s2) =
        (⟨200, Body.entry { t with status := s2 }⟩, afterUpdate db n s2) ∧
      setStatus sch none (setStatus sch none db user entryId (JsVal.str s)).2 user entryId
          (JsVal.str s) =
        setStatus sch none db user entryId (JsVal.str s) := by
  have hfirst := setStatus_found sch db user entryId s n t hm hs hid ht
  have hfind : (afterUpdate db n s).timesheet.find? (fun r => r.id == n)
      = some { t with status := s } := find_afterUpdate n s t db.timesheet ht
  refine ⟨hfirst, fun r hr hn => afterUpdate_status db n s r hr hn, ?_, ?_⟩
  · rw [hfirst]
    have h := setStatus_found sch (afterUpdate db n s) user entryId s2 n
      { t with status := s } hm hs2 hid hfind
    rw [afterUpdate_overwrite] at h
    exact h
  · rw [hfirst]
    have h := setStatus_found sch (afterUpdate db n s) user entryId s n
      { t with status := s } hm hs hid hfind
    rw [afterUpdate_idem] at h
    exact h

/-- Witness of C5: a rejected entry is approved, then rejected again. -/
theorem setStatus_idempotent_overwrite_witness :
    setStatus decimalSchema none sampleDb sarah "5" (JsVal.str "approved") =
        (⟨200, Body.entry ⟨5, "Audit", none, 20, 50000, 39600, 2, "approved"⟩⟩,
          afterUpdate sampleDb 5 "approved") ∧
      (∀ r ∈ (afterUpdate sampleDb 5 "approved").timesheet, r.id = 5 → r.status = "approved") ∧
      setStatus decimalSchema none
          (setStatus decimalSchema none sampleDb sarah "5" (JsVal.str "approved")).2 sarah "5"
          (JsVal.str "rejected") =
        (⟨200, Body.entry ⟨5, "Audit", none, 20, 50000, 39600, 2, "rejected"⟩⟩,
          afterUpdate sampleDb 5 "rejected") ∧
      setStatus decimalSchema none
          (setStatus decimalSchema none sampleDb sarah "5" (JsVal.str "approved")).2 sarah "5"
          (JsVal.str "approved") =
        setStatus decimalSchema none sampleDb sarah "5" (JsVal.str "approved") :=
  setStatus_idempotent_overwrite decimalSchema sampleDb sarah "5" "approved" "rejected" 5
    ⟨5, "Audit", none, 20, 50000, 39600, 2, "rejected"⟩
    (by decide) (by decide) (by decide) (by decide) (by decide)

/-! ## `listPendingForManager` -/

/-- C6: for every manager identity, with user ids a key of table users, the route answers
200 with a list that (1) holds exactly the rows of table timesheet that are pending and
whose owner has the manager as manager_id, each as often as the table has it, (2) gives
with each row the full_name of a user that owns the row and reports to the manager,
(3) is ascending in entry_date, and (4) has no row that is not pending or whose owner
reports to somebody else or to nobody. -/
theorem listPendingForManager_exact (db : Db) (m : Identity)
    (hm : m.role = "manager") (hk : (db.users.map (fun u => u.id)).Nodup) :
    ∃ rows, listPendingForManager none db m = (⟨200, Body.approvals rows⟩, db) ∧
      (rows.map (fun e => e.row)).Perm (db.timesheet.filter (pendingFor db m.id)) ∧
      (∀ e ∈ rows, ∃ u ∈ db.users, u.id = e.row.user_id ∧ u.manager_id = some m.id ∧
        e.employee_name = u.full_name) ∧
      rows.Sorted (fun a b => a.row.entry_date ≤ b.row.entry_date) ∧
      (∀ e ∈ rows, e.row.status = "pending" ∧
        ∀ u ∈ db.users, u.id = e.row.user_id → u.manager_id = some m.id) := by
  refine ⟨selectPending db m.id, ?_, ?_, ?_, ?_, ?_⟩
  · simp [listPendingForManager, requireManager_manager m hm, approvalsHandler, poolQuery]
  · rw [← joinPending_rows db m.id hk]
    exact (List.perm_insertionSort approvalOrder _).map _
  · intro e he
    exact ((mem_joinPending db m.id e).1 ((mem_selectPending db m.id e).1 he)).2.2
  · exact List.sorted_insertionSort approvalOrder _
  · intro e he
    obtain ⟨_, hst, u, hu, hid, hman, _⟩ :=
      (mem_joinPending db m.id e).1 ((mem_selectPending db m.id e).1 he)
    refine ⟨hst, fun v hv hvid => ?_⟩
    have hvu : v = u := by
      have hinj := List.inj_on_of_nodup_map hk
      exact hinj hv hu (by rw [hvid, hid])
    rw [hvu]
    exact hman

/-- Witness of C6: the first manager sees the two pending entries of her employees, oldest
first; the approved and rejected entries and the entry of the employee without a manager
are not listed. -/
theorem listPendingForManager_exact_witness :
    ∃ rows, listPendingForManager none sampleDb sarah = (⟨200, Body.approvals rows⟩, sampleDb) ∧
      (rows.map (fun e => e.row)).Perm (sampleDb.timesheet.filter (pendingFor sampleDb sarah.id)) ∧
      (∀ e ∈ rows, ∃ u ∈ sampleDb.users, u.id = e.row.user_id ∧ u.manager_id = some sarah.id ∧
        e.employee_name = u.full_name) ∧
      rows.Sorted (fun a b => a.row.entry_date ≤ b.row.entry_date) ∧
      (∀ e ∈ rows, e.row.status = "pending" ∧
        ∀ u ∈ sampleDb.users, u.id = e.row.user_id → u.manager_id = some sarah.id) :=
  listPendingForManager_exact sampleDb sarah (by decide) (by decide)

theorem listPendingForManager_ok (db : Db) (m : Identity) (hm : m.role = "manager") :
    listPendingForManager none db m = (⟨200, Body.approvals (selectPending db m.id)⟩, db) := by
  simp [listPendingForManager, requireManager_manager m hm, approvalsHandler, poolQuery]

theorem not_listed_of_not_pending (d : Db) (n k : Nat)
    (h : ∀ r ∈ d.timesheet, r.id = n → r.status ≠ "pending") :
    ∀ e ∈ selectPending d k, e.row.id ≠ n := by
  intro e he hn
  obtain ⟨hmem, hst, _⟩ := (mem_joinPending d k e).1 ((mem_selectPending d k e).1 he)
  exact h e.row hmem hn hst

theorem mem_joinPending_afterUpdate (db : Db) (n k : Nat) (e : ApprovalRow) :
    e ∈ joinPending (afterUpdate db n "approved") k ↔ e ∈ joinPending db k ∧ e.row.id ≠ n := by
  rw [mem_joinPending, mem_joinPending, mem_afterUpdate]
  constructor
  · rintro ⟨⟨t0, ht0, heq⟩, hst, hu⟩
    by_cases hid : t0.id = n
    · rw [if_pos hid] at heq
      rw [heq] at hst
      exact absurd (show "approved" = "pending" from hst) (by decide)
    · rw [if_neg hid] at heq
      rw [heq]
      rw [heq] at hst hu
      exact ⟨⟨ht0, hst, hu⟩, hid⟩
  · rintro ⟨⟨hmem, hst, hu⟩, hid⟩
    exact ⟨⟨e.row, hmem, by rw [if_neg hid]⟩, hst, hu⟩

/-- C7: let entry `t` be pending and owned by an employee `u` of manager `m`. It is listed
for `m`; the call setStatus(m, id, "approved") answers 200 and leaves every row with that
id at "approved"; in the store it leaves, the list of every manager has no row with that
id, and the list of `m` holds exactly the rows it held before other than that entry. The
entry stays unlisted in every later store in which its status is not "pending". -/
theorem approve_unlists_entry (sch : Schema) (db : Db) (m : Identity) (entryId : String)
    (n : Nat) (t : Timesheet) (u : User)
    (hm : m.role = "manager")
    (hid : sch.int (JsVal.str entryId) = some n)
    (ht : db.timesheet.find? (fun r => r.id == n) = some t)
    (hp : t.status = "pending")
    (hu : u ∈ db.users) (huid : u.id = t.user_id) (hman : u.manager_id = some m.id) :
    ∃ db' before after,
      listPendingForManager none db m = (⟨200, Body.approvals before⟩, db) ∧
      (⟨t, u.full_name⟩ : ApprovalRow) ∈ before ∧
      setStatus sch none db m entryId (JsVal.str "approved")
        = (⟨200, Body.entry { t with status := "approved" }⟩, db') ∧
      (∀ r ∈ db'.timesheet, r.id = n → r.status = "approved") ∧
      listPendingForManager none db' m = (⟨200, Body.approvals after⟩, db') ∧
      (∀ e, e ∈ after ↔ e ∈ before ∧ e.row.id ≠ n) ∧
      (∀ m' : Identity, m'.role = "manager" →
        ∃ rows, listPendingForManager none db' m' = (⟨200, Body.approvals rows⟩, db') ∧
          ∀ e ∈ rows, e.row.id ≠ n) ∧
      (∀ d : Db, (∀ r ∈ d.timesheet, r.id = n → r.status ≠ "pending") →
        ∀ m' : Identity, m'.role = "manager" →
        ∃ rows, listPendingForManager none d m' = (⟨200, Body.approvals rows⟩, d) ∧
          ∀ e ∈ rows, e.row.id ≠ n) := by
  have hnp : ∀ r ∈ (afterUpdate db n "approved").timesheet, r.id = n → r.status ≠ "pending" := by
    intro r hr hn hst
    rw [afterUpdate_status db n "approved" r hr hn] at hst
    exact absurd hst (by decide)
  refine ⟨afterUpdate db n "approved", selectPending db m.id,
    selectPending (afterUpdate db n "approved") m.id,
    listPendingForManager_ok db m hm, ?_,
    setStatus_found sch db m entryId "approved" n t hm (Or.inl rfl) hid ht,
    fun r hr hn => afterUpdate_status db n "approved" r hr hn,
    listPendingForManager_ok _ m hm, ?_, ?_, ?_⟩
  · rw [mem_selectPending, mem_joinPending]
    exact ⟨List.mem_of_find?_eq_some ht, hp, u, hu, huid, hman, rfl⟩
  · intro e
    rw [mem_selectPending, mem_selectPending, mem_joinPending_afterUpdate]
  · intro m' hm'
    exact ⟨_, listPendingForManager_ok _ m' hm', not_listed_of_not_pending _ n m'.id hnp⟩
  · intro d hd m' hm'
    exact ⟨_, listPendingForManager_ok d m' hm', not_listed_of_not_pending d n m'.id hd⟩

/-- Witness of C7: the first manager approves the pending entry 1 of her employee. -/
theorem approve_unlists_entry_witness :
    ∃ db' before after,
      listPendingForManager none sampleDb sarah = (⟨200, Body.approvals before⟩, sampleDb) ∧
      (⟨⟨1, "Website", some "landing page", 20, 32400, 61200, 2, "pending"⟩,
          some "Bob Employee"⟩ : ApprovalRow) ∈ before ∧
      setStatus decimalSchema none sampleDb sarah "1" (JsVal.str "approved")
        = (⟨200, Body.entry ⟨1, "Website", some "landing page", 20, 32400, 61200, 2,
            "approved"⟩⟩, db') ∧
      (∀ r ∈ db'.timesheet, r.id = 1 → r.status = "approved") ∧
      listPendingForManager none db' sarah = (⟨200, Body.approvals after⟩, db') ∧
      (∀ e, e ∈ after ↔ e ∈ before ∧ e.row.id ≠ 1) ∧
      (∀ m' : Identity, m'.role = "manager" →
        ∃ rows, listPendingForManager none db' m' = (⟨200, Body.approvals rows⟩, db') ∧
          ∀ e ∈ rows, e.row.id ≠ 1) ∧
      (∀ d : Db, (∀ r ∈ d.timesheet, r.id = 1 → r.status ≠ "pending") →
        ∀ m' : Identity, m'.role = "manager" →
        ∃ rows, listPendingForManager none d m' = (⟨200, Body.approvals rows⟩, d) ∧
          ∀ e ∈ rows, e.row.id ≠ 1) :=
  approve_unlists_entry decimalSchema sampleDb sarah "1" 1
    ⟨1, "Website", some "landing page", 20, 32400, 61200, 2, "pending"⟩
    ⟨2, "employee1@company.com", "h2", some "Bob Employee", "employee", some 1⟩
    (by decide) (by decide) (by decide) (by decide) (by decide) (by decide) (by decide)

/-! ## `createEntry` and `listOwnEntries` -/

instance entryOrderTotal : IsTotal EntryRow entryOrder :=
  ⟨fun a b => by unfold entryOrder; omega⟩

instance entryOrderTrans : IsTrans EntryRow entryOrder :=
  ⟨fun a b c hab hbc => by unfold entryOrder at *; omega⟩

theorem selectOwn_rows_perm (sch : Schema) (db : Db) (userId : Nat) :
    ((selectOwn sch db userId).map (fun e => e.row)).Perm
      (db.timesheet.filter (fun t => t.user_id == userId)) := by
  unfold selectOwn
  have h := (List.perm_insertionSort entryOrder
    ((db.timesheet.filter (fun t => t.user_id == userId)).map
      (fun t => (⟨t, durationHours sch t⟩ : EntryRow)))).map (fun e => e.row)
  simpa [List.map_map, Function.comp_def] using h

theorem insertTimesheet_ok (sch : Schema) (db : Db) (d : Draft) (userId : Nat)
    (project : String) (task : Option String) (date start stop : Nat)
    (hp : sch.textParam d.project = some project)
    (htk : sch.nullableText d.task_description = some task)
    (hd : sch.date d.entry_date = some date)
    (hs : sch.time d.start_time = some start)
    (he : sch.time d.end_time = some stop) :
    insertTimesheet sch db d userId =
      Except.ok (newRow db userId project task date start stop,
        afterInsert db (newRow db userId project task date start stop)) := by
  simp [insertTimesheet, hp, htk, hd, hs, he, newRow, afterInsert]

/-- A statement of `insertTimesheet` either raises or adds one row with the next serial
id and the caller as owner. -/
theorem insertTimesheet_cases (sch : Schema) (db : Db) (d : Draft) (userId : Nat) :
    (∃ e, insertTimesheet sch db d userId = Except.error e) ∨
    ∃ row, insertTimesheet sch db d userId = Except.ok (row, afterInsert db row) ∧
      row.id = db.timesheet_id_seq ∧ row.user_id = userId ∧ row.status = defaultStatus := by
  unfold insertTimesheet
  split
  · exact Or.inr ⟨_, rfl, rfl, rfl, rfl⟩
  · exact Or.inl ⟨_, rfl⟩

/-- A call of `createEntry` either answers with a row it has added to the table, or
answers without a row and leaves the store as it was. -/
theorem createEntry_cases (sch : Schema) (fault : Option String) (db : Db) (user : Identity)
    (d : Draft) :
    (∃ row, createEntry sch fault db user d = (⟨200, Body.entry row⟩, afterInsert db row) ∧
      row.id = db.timesheet_id_seq ∧ row.user_id = user.id ∧ row.status = defaultStatus) ∨
    (createEntry sch fault db user d = (⟨400, Body.msg "Please enter all required fields"⟩, db)) ∨
    (createEntry sch fault db user d = (⟨500, Body.text "Server Error"⟩, db)) := by
  unfold createEntry
  by_cases hinc : d.incomplete = true
  · simp [hinc]
  · simp only [hinc, Bool.false_eq_true, if_false]
    cases fault with
    | some e => simp [poolQuery]
    | none =>
      rcases insertTimesheet_cases sch db d user.id with ⟨e, he⟩ | ⟨row, hrow, h1, h2, h3⟩
      · simp [poolQuery, he]
      · exact Or.inl ⟨row, by simp [poolQuery, hrow], h1, h2, h3⟩

theorem createAll_cons (sch : Schema) (db : Db) (c : CreateCall) (cs : List CreateCall) :
    (∃ row, row.id = db.timesheet_id_seq ∧ row.user_id = c.user.id ∧
      createAll sch db (c :: cs) =
        ((createAll sch (afterInsert db row) cs).1,
          (c.user.id, row) :: (createAll sch (afterInsert db row) cs).2)) ∨
    createAll sch db (c :: cs) = createAll sch db cs := by
  rcases createEntry_cases sch c.fault db c.user c.draft with ⟨row, h, h1, h2, _⟩ | h | h
  · exact Or.inl ⟨row, h1, h2, by simp [createAll, h]⟩
  · exact Or.inr (by simp [createAll, h])
  · exact Or.inr (by simp [createAll, h])

/-- The table after a run of `createEntry` calls is the table before, followed by the
logged rows; every logged row is owned by its caller and has an id not below the serial
counter of the start, and the logged ids are pairwise different. -/
theorem createAll_log (sch : Schema) :
    ∀ (cs : List CreateCall) (db : Db),
      (createAll sch db cs).1.timesheet = db.timesheet ++ (createAll sch db cs).2.map Prod.snd ∧
      (∀ p ∈ (createAll sch db cs).2, p.2.user_id = p.1 ∧ db.timesheet_id_seq ≤ p.2.id) ∧
      ((createAll sch db cs).2.map (fun p => p.2.id)).Nodup
  | [], db => by simp [createAll]
  | c :: cs, db => by
    rcases createAll_cons sch db c cs with ⟨row, hid, huid, h⟩ | h
    · obtain ⟨ih1, ih2, ih3⟩ := createAll_log sch cs (afterInsert db row)
      rw [h]
      refine ⟨?_, ?_, ?_⟩
      · show (createAll sch (afterInsert db row) cs).1.timesheet = _
        rw [ih1]
        simp [afterInsert]
      · intro p hp
        rcases List.mem_cons.1 hp with rfl | hp
        · exact ⟨huid, by simp [hid]⟩
        · have := ih2 p hp
          simp only [afterInsert] at this
          exact ⟨this.1, by omega⟩
      · simp only [List.map_cons, List.nodup_cons]
        refine ⟨?_, ih3⟩
        intro hmem
        obtain ⟨p, hp, hpid⟩ := List.mem_map.1 hmem
        have := (ih2 p hp).2
        simp only [afterInsert] at this
        omega
    · rw [h]
      exact createAll_log sch cs db

theorem filter_log_rows (uid : Nat) :
    ∀ log : List (Nat × Timesheet), (∀ p ∈ log, p.2.user_id = p.1) →
      (log.map Prod.snd).filter (fun t => t.user_id == uid) =
        (log.filter (fun p => p.1 == uid)).map Prod.snd
  | [], _ => rfl
  | p :: log, h => by
    have hp : p.2.user_id = p.1 := h p (List.mem_cons_self p log)
    have ih := filter_log_rows uid log (fun q hq => h q (List.mem_cons_of_mem p hq))
    simp only [List.map_cons, List.filter_cons, hp, ih]
    split <;> rfl

/-- C8: start from a store whose table timesheet is empty and run any sequence of
createEntry calls by any users (each with any body and any driver state). Then
`GET /api/entries` of user `u` answers 200 with a list whose rows are exactly the rows
returned to the calls of `u`, each once, all owned by `u`. -/
theorem listOwnEntries_exact (sch : Schema) (db0 : Db) (calls : List CreateCall)
    (u : Identity) (h0 : db0.timesheet = []) :
    ∃ rows, listOwnEntries sch none (createAll sch db0 calls).1 u
        = (⟨200, Body.entries rows⟩, (createAll sch db0 calls).1) ∧
      (rows.map (fun e => e.row)).Perm
        (((createAll sch db0 calls).2.filter (fun p => p.1 == u.id)).map Prod.snd) ∧
      (rows.map (fun e => e.row)).Nodup ∧
      (∀ e ∈ rows, e.row.user_id = u.id) ∧
      (∀ p ∈ (createAll sch db0 calls).2, p.1 ≠ u.id → p.2 ∉ rows.map (fun e => e.row)) := by
  obtain ⟨h1, h2, h3⟩ := createAll_log sch calls db0
  rw [h0, List.nil_append] at h1
  have hperm : ((selectOwn sch (createAll sch db0 calls).1 u.id).map (fun e => e.row)).Perm
      (((createAll sch db0 calls).2.filter (fun p => p.1 == u.id)).map Prod.snd) := by
    have h := selectOwn_rows_perm sch (createAll sch db0 calls).1 u.id
    rw [h1, filter_log_rows u.id _ (fun p hp => (h2 p hp).1)] at h
    exact h
  have hown : ∀ e ∈ selectOwn sch (createAll sch db0 calls).1 u.id, e.row.user_id = u.id :=
    fun e he => ((mem_selectOwn _ _ _ e).1 he).2.1
  refine ⟨selectOwn sch (createAll sch db0 calls).1 u.id, rfl, hperm, ?_, hown, ?_⟩
  · rw [hperm.nodup_iff]
    have hnd : ((createAll sch db0 calls).2.map Prod.snd).Nodup := by
      have : ((createAll sch db0 calls).2.map Prod.snd).map (fun t => t.id)
          = (createAll sch db0 calls).2.map (fun p => p.2.id) := by
        simp [List.map_map, Function.comp_def]
      exact List.Nodup.of_map (fun t : Timesheet => t.id) (this ▸ h3)
    rw [← filter_log_rows u.id _ (fun p hp => (h2 p hp).1)]
    exact hnd.filter _
  · intro p hp hne hmem
    obtain ⟨e, he, hrow⟩ := List.mem_map.1 hmem
    have := hown e he
    rw [hrow, (h2 p hp).1] at this
    exact hne this

/-- Witness of C8: two users add entries in turn, one call has an empty project and one
hits a driver fault; the list of the first user holds his two rows. -/
theorem listOwnEntries_exact_witness :
    ∃ rows, listOwnEntries decimalSchema none (createAll decimalSchema ⟨sampleUsers, [], 6, 1⟩
          [⟨none, bob, ⟨JsVal.str "Website", JsVal.undefined, JsVal.str "10", JsVal.str "900",
              JsVal.str "1700"⟩⟩,
           ⟨none, ⟨3, "employee"⟩, ⟨JsVal.str "Audit", JsVal.null, JsVal.str "11",
              JsVal.str "800", JsVal.str "1200"⟩⟩,
           ⟨none, bob, ⟨JsVal.str "", JsVal.undefined, JsVal.str "12", JsVal.str "900",
              JsVal.str "1000"⟩⟩,
           ⟨some "connection refused", bob, ⟨JsVal.str "Website", JsVal.undefined,
              JsVal.str "12", JsVal.str "900", JsVal.str "1000"⟩⟩,
           ⟨none, bob, ⟨JsVal.str "Website", JsVal.str "review", JsVal.str "13",
              JsVal.str "900", JsVal.str "800"⟩⟩]).1 bob
        = (⟨200, Body.entries rows⟩,
          ⟨sampleUsers,
            [⟨1, "Website", none, 10, 900, 1700, 2, "pending"⟩,
             ⟨2, "Audit", none, 11, 800, 1200, 3, "pending"⟩,
             ⟨3, "Website", some "review", 13, 900, 800, 2, "pending"⟩], 6, 4⟩) ∧
      (rows.map (fun e => e.row)).Perm
        [⟨1, "Website", none, 10, 900, 1700, 2, "pending"⟩,
         ⟨3, "Website", some "review", 13, 900, 800, 2, "pending"⟩] :=
  have h := listOwnEntries_exact decimalSchema ⟨sampleUsers, [], 6, 1⟩
    [⟨none, bob, ⟨JsVal.str "Website", JsVal.undefined, JsVal.str "10", JsVal.str "900",
        JsVal.str "1700"⟩⟩,
     ⟨none, ⟨3, "employee"⟩, ⟨JsVal.str "Audit", JsVal.null, JsVal.str "11",
        JsVal.str "800", JsVal.str "1200"⟩⟩,
     ⟨none, bob, ⟨JsVal.str "", JsVal.undefined, JsVal.str "12", JsVal.str "900",
        JsVal.str "1000"⟩⟩,
     ⟨some "connection refused", bob, ⟨JsVal.str "Website", JsVal.undefined,
        JsVal.str "12", JsVal.str "900", JsVal.str "1000"⟩⟩,
     ⟨none, bob, ⟨JsVal.str "Website", JsVal.str "review", JsVal.str "13",
        JsVal.str "900", JsVal.str "800"⟩⟩] bob rfl
  match h with
  | ⟨rows, hrows, hperm, _⟩ => ⟨rows, hrows, hperm⟩

/-- C9: the list of `GET /api/entries` is ordered by (entry_date descending, start_time
descending): of every two adjacent rows the earlier has a later date, or the same date
and a later or equal start time; the same holds of every two rows, adjacent or not. -/
theorem listOwnEntries_sorted (sch : Schema) (db : Db) (u : Identity) :
    ∃ rows, listOwnEntries sch none db u = (⟨200, Body.entries rows⟩, db) ∧
      rows.Chain' (fun a b => b.row.entry_date < a.row.entry_date ∨
        (a.row.entry_date = b.row.entry_date ∧ b.row.start_time ≤ a.row.start_time)) ∧
      rows.Pairwise (fun a b => b.row.entry_date < a.row.entry_date ∨
        (a.row.entry_date = b.row.entry_date ∧ b.row.start_time ≤ a.row.start_time)) := by
  have hs : (selectOwn sch db u.id).Sorted entryOrder :=
    List.sorted_insertionSort entryOrder _
  exact ⟨selectOwn sch db u.id, rfl, List.Pairwise.chain' hs, hs⟩

theorem falsy_iff (v : JsVal) :
    v.falsy = true ↔ v = JsVal.undefined ∨ v = JsVal.null ∨ v = JsVal.bool false ∨
      v = JsVal.num 0 ∨ v = JsVal.str "" := by
  cases v <;> simp [JsVal.falsy]

theorem incomplete_iff (d : Draft) :
    d.incomplete = true ↔ d.project.falsy = true ∨ d.entry_date.falsy = true ∨
      d.start_time.falsy = true ∨ d.end_time.falsy = true := by
  simp [Draft.incomplete, or_assoc]

/-- C10, as stated, fails: a body whose project is the number 0 has all four required
fields present and none empty, yet the test `!project` answers 400. -/
theorem createEntry_zero_project_rejected :
    (createEntry decimalSchema none sampleDb bob
        ⟨JsVal.num 0, JsVal.str "fix", JsVal.str "2024-01-10", JsVal.str "09:00",
          JsVal.str "17:00"⟩).1.status = 400 ∧
      ¬ ((JsVal.num 0).missingOrEmpty = true ∨ (JsVal.str "2024-01-10").missingOrEmpty = true ∨
        (JsVal.str "09:00").missingOrEmpty = true ∨ (JsVal.str "17:00").missingOrEmpty = true) := by
  decide

/-- C10, amended: the route answers 400 if and only if one of project, entry_date,
start_time, end_time is falsy in the body (absent, null, the empty string, false or the
number 0), and then, whatever the driver state, answers "Please enter all required fields"
and returns the store untouched; task_description is not tested; a body that passes the
test and whose fields the store accepts is answered 200 and its row is added with the
start and end it gives, also when the end is earlier than the start. -/
theorem createEntry_validation (sch : Schema) (fault : Option String) (db : Db)
    (user : Identity) (d : Draft) :
    ((createEntry sch fault db user d).1.status = 400 ↔
      (d.project.falsy = true ∨ d.entry_date.falsy = true ∨ d.start_time.falsy = true ∨
        d.end_time.falsy = true)) ∧
    ((d.project.falsy = true ∨ d.entry_date.falsy = true ∨ d.start_time.falsy = true ∨
        d.end_time.falsy = true) →
      createEntry sch fault db user d =
        (⟨400, Body.msg "Please enter all required fields"⟩, db)) ∧
    (∀ v : JsVal, v.falsy = true ↔ v = JsVal.undefined ∨ v = JsVal.null ∨
      v = JsVal.bool false ∨ v = JsVal.num 0 ∨ v = JsVal.str "") ∧
    (∀ task : JsVal, (createEntry sch fault db user { d with task_description := task }).1.status
        = 400 ↔ (createEntry sch fault db user d).1.status = 400) ∧
    (∀ (project : String) (task : Option String) (date start stop : Nat),
      d.incomplete = false →
      sch.textParam d.project = some project →
      sch.nullableText d.task_description = some task →
      sch.date d.entry_date = some date →
      sch.time d.start_time = some start →
      sch.time d.end_time = some stop →
      createEntry sch none db user d =
        (⟨200, Body.entry (newRow db user.id project task date start stop)⟩,
          afterInsert db (newRow db user.id project task date start stop))) := by
  have hstatus : ∀ d' : Draft,
      (createEntry sch fault db user d').1.status = 400 ↔ d'.incomplete = true := by
    intro d'
    constructor
    · intro h
      by_contra hinc
      rcases createEntry_cases sch fault db user d' with ⟨row, hr, _⟩ | hr | hr
      · rw [hr] at h
        exact absurd (show (200 : Nat) = 400 from h) (by decide)
      · unfold createEntry at hr
        simp only [hinc, Bool.false_eq_true, if_false] at hr
        cases fault with
        | some e => simp [poolQuery] at hr
        | none =>
          rcases insertTimesheet_cases sch db d' user.id with ⟨e, he⟩ | ⟨row, hrow, _⟩
          · simp [poolQuery, he] at hr
          · simp [poolQuery, hrow] at hr
      · rw [hr] at h
        exact absurd (show (500 : Nat) = 400 from h) (by decide)
    · intro hinc
      simp [createEntry, hinc]
  refine ⟨?_, ?_, falsy_iff, ?_, ?_⟩
  · rw [hstatus d, incomplete_iff]
  · intro h
    have hinc := (incomplete_iff d).2 h
    simp [createEntry, hinc]
  · intro task
    rw [hstatus, hstatus]
    simp [Draft.incomplete]
  · intro project task date start stop hinc hp htk hd hs he
    simp [createEntry, hinc, poolQuery,
      insertTimesheet_ok sch db d user.id project task date start stop hp htk hd hs he]

/-- Witness of C10: a body without task_description whose end (08:00) is earlier than its
start (09:00) is stored. -/
theorem createEntry_validation_witness :
    createEntry decimalSchema none sampleDb bob
        ⟨JsVal.str "Website", JsVal.undefined, JsVal.str "13", JsVal.str "32400",
          JsVal.str "28800"⟩ =
      (⟨200, Body.entry ⟨6, "Website", none, 13, 32400, 28800, 2, "pending"⟩⟩,
        afterInsert sampleDb ⟨6, "Website", none, 13, 32400, 28800, 2, "pending"⟩) :=
  (createEntry_validation decimalSchema none sampleDb bob
      ⟨JsVal.str "Website", JsVal.undefined, JsVal.str "13", JsVal.str "32400",
        JsVal.str "28800"⟩).2.2.2.2 "Website" none 13 32400 28800
    (by decide) (by decide) (by decide) (by decide) (by decide) (by decide)

/-! ## The token check in front of the routes -/

theorem authMiddleware_ok_iff (jwt : Jwt) (now : Nat) (token : Option String) (user : Identity) :
    authMiddleware jwt now token = Except.ok user ↔
      ∃ t, token = some t ∧ t ≠ "" ∧ jwt.verify now t = some user := by
  unfold authMiddleware
  cases token with
  | none => simp [noToken]
  | some t =>
    by_cases ht : t = ""
    · simp [noToken, ht]
    · simp only [noToken, beq_iff_eq, ht, Bool.false_eq_true, if_false, Option.getD_some]
      cases hv : jwt.verify now t with
      | none => simp [hv]
      | some u => simp [hv, ht]

theorem authMiddleware_of_verified (jwt : Jwt) (now : Nat) (token : Option String) (t : String)
    (user : Identity) (htok : token = some t) (hne : t ≠ "")
    (hver : jwt.verify now t = some user) :
    authMiddleware jwt now token = Except.ok user :=
  (authMiddleware_ok_iff jwt now token user).2 ⟨t, htok, hne, hver⟩

theorem authMiddleware_error_status (jwt : Jwt) (now : Nat) (token : Option String)
    (res : Response) (h : authMiddleware jwt now token = Except.error res) :
    res = ⟨401, Body.msg "No token, authorization denied"⟩ ∨
      res = ⟨401, Body.msg "Token is not valid"⟩ := by
  unfold authMiddleware at h
  by_cases hn : noToken token = true
  · simp only [hn, if_true] at h
    left
    injection h with h
    exact h.symm
  · simp only [hn, Bool.false_eq_true, if_false] at h
    cases hv : jwt.verify now (token.getD "") with
    | none =>
      simp only [hv] at h
      right
      injection h with h
      exact h.symm
    | some u => simp [hv] at h

/-! ## `createEntry`: the stored row -/

/-- C11, as stated, fails: a body with all four required fields whose entry_date the
store cannot read as a date passes the test of the handler, the INSERT raises, the route
answers 500 and no row is persisted. -/
theorem postEntries_unreadable_date :
    (draftOfBody [("project", JsVal.str "Website"), ("entry_date", JsVal.str "2024-13-45"),
        ("start_time", JsVal.str "32400"), ("end_time", JsVal.str "61200")]).incomplete = false ∧
      postEntries decimalSchema toyJwt 0 none sampleDb (some "bob-token")
          [("project", JsVal.str "Website"), ("entry_date", JsVal.str "2024-13-45"),
            ("start_time", JsVal.str "32400"), ("end_time", JsVal.str "61200")] =
        (⟨500, Body.text "Server Error"⟩, sampleDb) := by
  decide

/-- C11, amended: for every identity that the token check attaches to the request and
every body whose four required fields pass the test of the handler: when the store can
read the values, the route `POST /api/entries` adds exactly one row to table timesheet,
whose owner is the id of the verified token, whose status is "pending" and whose other
columns are the store's reading of the body's project, task_description, entry_date,
start_time and end_time (a string project or task is stored as it is), and table users is
untouched; when the store cannot read one of the values, the route answers 500 and the
store is unchanged. No other property of the body, such as a user_id, has any effect on
the response or the store. -/
theorem postEntries_stores_draft (sch : Schema) (jwt : Jwt) (now : Nat) (db : Db)
    (token : Option String) (t : String) (user : Identity) (body : JsObject)
    (htok : token = some t) (hne : t ≠ "") (hver : jwt.verify now t = some user)
    (hreq : (draftOfBody body).incomplete = false) :
    (∀ (project : String) (task : Option String) (date start stop : Nat),
      sch.textParam (body.get "project") = some project →
      sch.nullableText (body.get "task_description") = some task →
      sch.date (body.get "entry_date") = some date →
      sch.time (body.get "start_time") = some start →
      sch.time (body.get "end_time") = some stop →
      postEntries sch jwt now none db token body =
          (⟨200, Body.entry ⟨db.timesheet_id_seq, project, task, date, start, stop, user.id,
              "pending"⟩⟩,
            ⟨db.users,
              db.timesheet ++ [⟨db.timesheet_id_seq, project, task, date, start, stop, user.id,
                "pending"⟩],
              db.users_id_seq, db.timesheet_id_seq + 1⟩) ∧
        (∀ p : String, body.get "project" = JsVal.str p → project = p) ∧
        (∀ d : String, body.get "task_description" = JsVal.str d → task = some d) ∧
        (body.get "task_description" = JsVal.undefined → task = none)) ∧
    ((sch.textParam (body.get "project") = none ∨
        sch.nullableText (body.get "task_description") = none ∨
        sch.date (body.get "entry_date") = none ∨
        sch.time (body.get "start_time") = none ∨
        sch.time (body.get "end_time") = none) →
      postEntries sch jwt now none db token body = (⟨500, Body.text "Server Error"⟩, db)) ∧
    (∀ (fault : Option String) (body' : JsObject),
      (∀ k ∈ ["project", "task_description", "entry_date", "start_time", "end_time"],
        JsObject.get body' k = JsObject.get body k) →
      postEntries sch jwt now fault db token body' =
        postEntries sch jwt now fault db token body) := by
  have hauth := authMiddleware_of_verified jwt now token t user htok hne hver
  refine ⟨?_, ?_, ?_⟩
  · intro project task date start stop hp htk hd hs he
    refine ⟨?_, ?_, ?_, ?_⟩
    · have hins := insertTimesheet_ok sch db (draftOfBody body) user.id project task date start
        stop hp htk hd hs he
      simp only [postEntries, hauth, createEntry, hreq, Bool.false_eq_true, if_false, poolQuery,
        hins]
      rfl
    · intro p hpv
      rw [hpv] at hp
      simpa [Schema.textParam] using hp.symm
    · intro d hdv
      rw [hdv] at htk
      simpa [Schema.nullableText, Schema.textParam] using htk.symm
    · intro hu
      rw [hu] at htk
      simpa [Schema.nullableText] using htk.symm
  · intro hbad
    have hins : insertTimesheet sch db (draftOfBody body) user.id =
        Except.error "invalid input syntax" := by
      unfold insertTimesheet
      simp only [draftOfBody]
      rcases hbad with h | h | h | h | h
      · rw [h]
      · rw [h]
        cases sch.textParam (body.get "project") <;> rfl
      · rw [h]
        cases sch.textParam (body.get "project") <;>
          cases sch.nullableText (body.get "task_description") <;> rfl
      · rw [h]
        cases sch.textParam (body.get "project") <;>
          cases sch.nullableText (body.get "task_description") <;>
          cases sch.date (body.get "entry_date") <;> rfl
      · rw [h]
        cases sch.textParam (body.get "project") <;>
          cases sch.nullableText (body.get "task_description") <;>
          cases sch.date (body.get "entry_date") <;>
          cases sch.time (body.get "start_time") <;> rfl
    simp only [postEntries, hauth, createEntry, hreq, Bool.false_eq_true, if_false, poolQuery,
      hins]
  · intro fault body' hagree
    have hdraft : draftOfBody body' = draftOfBody body := by
      simp only [draftOfBody]
      rw [hagree "project" (by simp), hagree "task_description" (by simp),
        hagree "entry_date" (by simp), hagree "start_time" (by simp),
        hagree "end_time" (by simp)]
    simp only [postEntries, hdraft]

/-- Witness of C11: the token of employee 2 with a body that names user 1 as user_id, and
the same token with a date the store cannot read. -/
theorem postEntries_stores_draft_witness :
    postEntries decimalSchema toyJwt 0 none sampleDb (some "bob-token")
        [("user_id", JsVal.str "1"), ("project", JsVal.str "Website"),
          ("entry_date", JsVal.str "21"), ("start_time", JsVal.str "32400"),
          ("end_time", JsVal.str "61200")] =
      (⟨200, Body.entry ⟨6, "Website", none, 21, 32400, 61200, 2, "pending"⟩⟩,
        ⟨sampleDb.users,
          sampleDb.timesheet ++ [⟨6, "Website", none, 21, 32400, 61200, 2, "pending"⟩],
          6, 7⟩) ∧
      postEntries decimalSchema toyJwt 0 none sampleDb (some "bob-token")
        [("project", JsVal.str "Website"), ("entry_date", JsVal.str "2024-13-45"),
          ("start_time", JsVal.str "32400"), ("end_time", JsVal.str "61200")] =
      (⟨500, Body.text "Server Error"⟩, sampleDb) :=
  ⟨((postEntries_stores_draft decimalSchema toyJwt 0 sampleDb (some "bob-token") "bob-token"
      ⟨2, "employee"⟩
      [("user_id", JsVal.str "1"), ("project", JsVal.str "Website"),
        ("entry_date", JsVal.str "21"), ("start_time", JsVal.str "32400"),
        ("end_time", JsVal.str "61200")]
      rfl (by decide) (by decide) (by decide)).1 "Website" none 21 32400 61200
      (by decide) (by decide) (by decide) (by decide) (by decide)).1,
    (postEntries_stores_draft decimalSchema toyJwt 0 sampleDb (some "bob-token") "bob-token"
      ⟨2, "employee"⟩
      [("project", JsVal.str "Website"), ("entry_date", JsVal.str "2024-13-45"),
        ("start_time", JsVal.str "32400"), ("end_time", JsVal.str "61200")]
      rfl (by decide) (by decide) (by decide)).2.1 (Or.inr (Or.inr (Or.inl (by decide))))⟩

/-- C12, as stated, fails: the row that a successful `POST /api/entries` returns has no
property duration_hours, while the rows of `GET /api/entries` have it. -/
theorem createEntry_response_without_duration :
    (createEntry decimalSchema none sampleDb bob
        ⟨JsVal.str "Website", JsVal.undefined, JsVal.str "21", JsVal.str "32400",
          JsVal.str "61200"⟩).1
        = ⟨200, Body.entry ⟨6, "Website", none, 21, 32400, 61200, 2, "pending"⟩⟩ ∧
      (∀ ps ∈ (createEntry decimalSchema none sampleDb bob
          ⟨JsVal.str "Website", JsVal.undefined, JsVal.str "21", JsVal.str "32400",
            JsVal.str "61200"⟩).1.body.properties, "duration_hours" ∉ ps) ∧
      (∀ ps ∈ (listOwnEntries decimalSchema none sampleDb bob).1.body.properties,
        "duration_hours" ∈ ps) := by
  decide

/-- C12, amended: for every successful createEntry the row returned to the caller is the
full stored row, the one row the call has added to the table; it has the columns of the
table and no derived duration. The duration is derived only by listOwnEntries, which lists
that row with the duration_hours the store computes as (end_time - start_time) / 3600. -/
theorem createEntry_returns_stored_row (sch : Schema) (fault : Option String) (db : Db)
    (user : Identity) (d : Draft)
    (hok : (createEntry sch fault db user d).1.status = 200) :
    ∃ row db', createEntry sch fault db user d = (⟨200, Body.entry row⟩, db') ∧
      db'.timesheet = db.timesheet ++ [row] ∧
      (Body.entry row).properties = [timesheetColumns] ∧
      "duration_hours" ∉ timesheetColumns ∧
      ∃ rows, listOwnEntries sch none db' user = (⟨200, Body.entries rows⟩, db') ∧
        (⟨row, durationHours sch row⟩ : EntryRow) ∈ rows ∧
        ∀ ps ∈ (Body.entries rows).properties, "duration_hours" ∈ ps := by
  rcases createEntry_cases sch fault db user d with ⟨row, hr, _, huid, _⟩ | hr | hr
  · refine ⟨row, afterInsert db row, hr, rfl, rfl, by decide,
      selectOwn sch (afterInsert db row) user.id, rfl, ?_, ?_⟩
    · rw [mem_selectOwn]
      exact ⟨by simp [afterInsert], huid, rfl⟩
    · intro ps hps
      simp only [Body.properties, List.mem_map] at hps
      obtain ⟨_, _, rfl⟩ := hps
      decide
  · rw [hr] at hok
    exact absurd (show (400 : Nat) = 200 from hok) (by decide)
  · rw [hr] at hok
    exact absurd (show (500 : Nat) = 200 from hok) (by decide)

/-- Witness of C12: the entry of the counterexample, returned without a duration and
listed with one. -/
theorem createEntry_returns_stored_row_witness :
    ∃ row db', createEntry decimalSchema none sampleDb bob
          ⟨JsVal.str "Website", JsVal.undefined, JsVal.str "21", JsVal.str "32400",
            JsVal.str "61200"⟩ = (⟨200, Body.entry row⟩, db') ∧
      db'.timesheet = sampleDb.timesheet ++ [row] ∧
      (Body.entry row).properties = [timesheetColumns] ∧
      "duration_hours" ∉ timesheetColumns ∧
      ∃ rows, listOwnEntries decimalSchema none db' bob = (⟨200, Body.entries rows⟩, db') ∧
        (⟨row, durationHours decimalSchema row⟩ : EntryRow) ∈ rows ∧
        ∀ ps ∈ (Body.entries rows).properties, "duration_hours" ∈ ps :=
  createEntry_returns_stored_row decimalSchema none sampleDb bob
    ⟨JsVal.str "Website", JsVal.undefined, JsVal.str "21", JsVal.str "32400",
      JsVal.str "61200"⟩ (by decide)

/-! ## `duration_hours` -/

theorem toFixed_two_near_eight (x : ℚ) (h1 : 7995 / 1000 ≤ x) (h2 : x < 8005 / 1000) :
    toFixed 2 x = "8.00" := by
  have hpos : 0 < x := lt_of_lt_of_le (by norm_num) h1
  have hden : (0 : ℚ) < (x.den : ℚ) := by exact_mod_cast x.den_pos
  have hx : (x.num : ℚ) / (x.den : ℚ) = x := Rat.num_div_den x
  have hnum : 0 < x.num := Rat.num_pos.2 hpos
  have hk' : ((x.num.natAbs : Nat) : ℚ) = (x.num : ℚ) := by
    rw [Nat.cast_natAbs, abs_of_pos hnum]
  have hb1 : (1599 : ℚ) * x.den ≤ 200 * (x.num.natAbs : ℚ) := by
    rw [hk']
    have h : (7995 / 1000 : ℚ) * x.den ≤ x.num := by
      rw [← hx] at h1
      exact (le_div_iff₀ hden).1 h1
    linarith
  have hb2 : (200 : ℚ) * (x.num.natAbs : ℚ) < 1601 * x.den := by
    rw [hk']
    have h : (x.num : ℚ) < 8005 / 1000 * x.den := by
      rw [← hx] at h2
      exact (div_lt_iff₀ hden).1 h2
    linarith
  have hb1n : 1599 * x.den ≤ 200 * x.num.natAbs := by exact_mod_cast hb1
  have hb2n : 200 * x.num.natAbs < 1601 * x.den := by exact_mod_cast hb2
  have hn : (2 * 10 ^ 2 * x.num.natAbs + x.den) / (2 * x.den) = 800 := by
    apply Nat.div_eq_of_lt_le
    · omega
    · omega
  have hneg : ¬ x < 0 := not_lt.2 hpos.le
  simp only [toFixed, hn, hneg, if_false]
  decide

theorem decimalHours_error (n : Int) : |decimalHours n - (n : ℚ) / 3600| < 1 / 3600 := by
  unfold decimalHours
  have h1 : 7200 * ((2 * n.natAbs * 10 ^ 16 + 3600) / 7200) ≤ 2 * n.natAbs * 10 ^ 16 + 3600 :=
    Nat.mul_div_le _ _
  have h2 : 2 * n.natAbs * 10 ^ 16 + 3600 <
      7200 * ((2 * n.natAbs * 10 ^ 16 + 3600) / 7200 + 1) :=
    Nat.lt_mul_div_succ _ (by norm_num)
  generalize (2 * n.natAbs * 10 ^ 16 + 3600) / 7200 = m at h1 h2 ⊢
  have h1q : (7200 : ℚ) * m ≤ 2 * (n.natAbs : ℚ) * 10 ^ 16 + 3600 := by exact_mod_cast h1
  have h2q : 2 * (n.natAbs : ℚ) * 10 ^ 16 + 3600 < 7200 * ((m : ℚ) + 1) := by
    exact_mod_cast h2
  have habs : ((n.natAbs : Nat) : ℚ) = |(n : ℚ)| := by
    rw [Nat.cast_natAbs, Int.cast_abs]
  rw [abs_lt]
  by_cases hn : n < 0
  · have hq : |(n : ℚ)| = -(n : ℚ) := abs_of_neg (by exact_mod_cast hn)
    rw [habs, hq] at h1q h2q
    simp only [hn, if_true]
    norm_num at h1q h2q ⊢
    constructor <;> linarith
  · have hq : |(n : ℚ)| = (n : ℚ) := abs_of_nonneg (by exact_mod_cast (not_lt.1 hn))
    rw [habs, hq] at h1q h2q
    simp only [hn, if_false]
    norm_num at h1q h2q ⊢
    constructor <;> linarith

/-- C13, as stated, fails: the store divides in decimals and rounds. In a store that
keeps sixteen decimal places, the entry 09:00 to 09:20 is listed with
0.3333333333333333, which is not the rational 1200 / 3600. -/
theorem duration_is_rounded :
    listOwnEntries decimalSchema none
        (afterInsert sampleDb ⟨6, "Website", none, 21, 32400, 33600, 2, "pending"⟩) bob =
      (⟨200, Body.entries (selectOwn decimalSchema
          (afterInsert sampleDb ⟨6, "Website", none, 21, 32400, 33600, 2, "pending"⟩) 2)⟩,
        afterInsert sampleDb ⟨6, "Website", none, 21, 32400, 33600, 2, "pending"⟩) ∧
      (⟨⟨6, "Website", none, 21, 32400, 33600, 2, "pending"⟩, 3333333333333333 / 10 ^ 16⟩ :
          EntryRow) ∈ selectOwn decimalSchema
        (afterInsert sampleDb ⟨6, "Website", none, 21, 32400, 33600, 2, "pending"⟩) 2 ∧
      (3333333333333333 / 10 ^ 16 : ℚ) ≠ ((33600 : ℚ) - 32400) / 3600 :=
  ⟨rfl,
    (mem_selectOwn decimalSchema _ 2 _).2
      ⟨by decide, by decide, by norm_num [durationHours, decimalSchema, decimalHours]⟩,
    by norm_num⟩

/-- C13, amended: every row of `GET /api/entries` has as duration_hours the value the
store computes for (end_time - start_time) in seconds divided by 3600, a rounded decimal
and not the exact rational. Whenever the store's rounding error is below 1 / 3600, the
value is within that error of the exact quotient, it is negative when the end precedes
the start, and for start 09:00 and end 17:00 the table shows it as "8.00 hrs", whether the
store sends the number or a string that parseFloat reads as that number; it is 8 when the
store divides 28800 by 3600 without error. -/
theorem listOwnEntries_duration (sch : Schema) (db : Db) (u : Identity)
    (herr : ∀ n : Int, |sch.hours n - (n : ℚ) / 3600| < 1 / 3600) :
    ∃ rows, listOwnEntries sch none db u = (⟨200, Body.entries rows⟩, db) ∧
      ∀ e ∈ rows,
        e.duration_hours = sch.hours ((e.row.end_time : Int) - (e.row.start_time : Int)) ∧
        |e.duration_hours - ((e.row.end_time : ℚ) - (e.row.start_time : ℚ)) / 3600|
          < 1 / 3600 ∧
        (e.row.end_time < e.row.start_time → e.duration_hours < 0) ∧
        (e.row.start_time = 9 * 3600 → e.row.end_time = 17 * 3600 →
          (sch.hours 28800 = 8 → e.duration_hours = 8) ∧
          (∀ parseStr, formattedDuration parseStr (JsVal.num e.duration_hours) = "8.00 hrs") ∧
          (∀ parseStr s, s ≠ "" → parseStr s = some e.duration_hours →
            formattedDuration parseStr (JsVal.str s) = "8.00 hrs")) := by
  refine ⟨selectOwn sch db u.id, rfl, ?_⟩
  intro e he
  have hdur : e.duration_hours =
      sch.hours ((e.row.end_time : Int) - (e.row.start_time : Int)) :=
    ((mem_selectOwn sch db u.id e).1 he).2.2
  have hnear : |e.duration_hours - ((e.row.end_time : ℚ) - (e.row.start_time : ℚ)) / 3600|
      < 1 / 3600 := by
    have h := herr ((e.row.end_time : Int) - (e.row.start_time : Int))
    rw [← hdur] at h
    push_cast at h
    exact h
  refine ⟨hdur, hnear, ?_, ?_⟩
  · intro hlt
    have hle : (e.row.end_time : ℚ) + 1 ≤ (e.row.start_time : ℚ) := by exact_mod_cast hlt
    have h := (abs_lt.1 hnear).2
    have hq : ((e.row.end_time : ℚ) - (e.row.start_time : ℚ)) / 3600 ≤ -(1 / 3600) := by
      rw [div_le_iff₀ (by norm_num)]
      linarith
    linarith
  · intro hs hen
    rw [hs, hen] at hnear
    have hb := abs_lt.1 hnear
    have h1 : (7995 / 1000 : ℚ) ≤ e.duration_hours := by
      have := hb.1
      norm_num at this
      linarith
    have h2 : e.duration_hours < (8005 / 1000 : ℚ) := by
      have := hb.2
      norm_num at this
      linarith
    have hfix : toFixed 2 e.duration_hours = "8.00" :=
      toFixed_two_near_eight e.duration_hours h1 h2
    have hne : e.duration_hours ≠ 0 := by
      intro h0
      rw [h0] at h1
      norm_num at h1
    refine ⟨?_, ?_, ?_⟩
    · intro hexact
      rw [hdur, hs, hen]
      norm_num
      exact hexact
    · intro parseStr
      have hfalsy : (JsVal.num e.duration_hours).falsy = false := by
        simp [JsVal.falsy, hne]
      simp only [formattedDuration, hfalsy, Bool.false_eq_true, if_false, hfix]
      decide
    · intro parseStr s hne' hparse
      have hfalsy : (JsVal.str s).falsy = false := by simp [JsVal.falsy, hne']
      simp only [formattedDuration, hfalsy, Bool.false_eq_true, if_false, hparse, hfix]
      decide

/-- Witness of C13: the entries of employee 2 in the store that keeps sixteen decimal
places, among them 09:00 to 17:00 (8 hours) and one whose end precedes its start. -/
theorem listOwnEntries_duration_witness :
    (⟨⟨1, "Website", some "landing page", 20, 32400, 61200, 2, "pending"⟩, 8⟩ : EntryRow)
        ∈ selectOwn decimalSchema sampleDb 2 ∧
      (⟨⟨5, "Audit", none, 20, 50000, 39600, 2, "rejected"⟩, -28888888888888889 / 10 ^ 16⟩ :
          EntryRow) ∈ selectOwn decimalSchema sampleDb 2 ∧
      ∃ rows, listOwnEntries decimalSchema none sampleDb bob
          = (⟨200, Body.entries rows⟩, sampleDb) ∧
        ∀ e ∈ rows,
          e.duration_hours =
            decimalSchema.hours ((e.row.end_time : Int) - (e.row.start_time : Int)) ∧
          |e.duration_hours - ((e.row.end_time : ℚ) - (e.row.start_time : ℚ)) / 3600|
            < 1 / 3600 ∧
          (e.row.end_time < e.row.start_time → e.duration_hours < 0) ∧
          (e.row.start_time = 9 * 3600 → e.row.end_time = 17 * 3600 →
            (decimalSchema.hours 28800 = 8 → e.duration_hours = 8) ∧
            (∀ parseStr, formattedDuration parseStr (JsVal.num e.duration_hours) = "8.00 hrs") ∧
            (∀ parseStr s, s ≠ "" → parseStr s = some e.duration_hours →
              formattedDuration parseStr (JsVal.str s) = "8.00 hrs")) :=
  ⟨(mem_selectOwn decimalSchema sampleDb 2 _).2
      ⟨by decide, by decide, by norm_num [durationHours, decimalSchema, decimalHours]⟩,
    (mem_selectOwn decimalSchema sampleDb 2 _).2
      ⟨by decide, by decide, by norm_num [durationHours, decimalSchema, decimalHours]⟩,
    listOwnEntries_duration decimalSchema sampleDb bob decimalHours_error⟩

/-! ## `authMiddleware` and `requireRole` -/

/-- C14: `authMiddleware` calls next exactly when the header x-auth-token holds a
non-empty token that verifies at the time of the request, and the identity it attaches is
the user of the token's payload; the library rejects the empty string, and with that, next
is called exactly when the header is present and its token verifies. In every other case
the response has status 401, and each of the four protected routes, the two manager routes
included, answers with that response and returns the store untouched, whatever the driver
state, the path parameter and the body. After next, each route runs its handler with the
identity of the token. -/
theorem authMiddleware_gate (sch : Schema) (jwt : Jwt) (now : Nat) (fault : Option String)
    (db : Db) (token : Option String) (entryId : String) (body : JsObject) :
    (∀ user, authMiddleware jwt now token = Except.ok user ↔
      ∃ t, token = some t ∧ t ≠ "" ∧ jwt.verify now t = some user) ∧
    (jwt.verify now "" = none →
      ∀ user, authMiddleware jwt now token = Except.ok user ↔
        ∃ t, token = some t ∧ jwt.verify now t = some user) ∧
    ((¬ ∃ t user, token = some t ∧ t ≠ "" ∧ jwt.verify now t = some user) →
      ∃ res, authMiddleware jwt now token = Except.error res ∧ res.status = 401 ∧
        getEntries sch jwt now fault db token = (res, db) ∧
        postEntries sch jwt now fault db token body = (res, db) ∧
        getApprovals jwt now fault db token = (res, db) ∧
        putApprove sch jwt now fault db token entryId body = (res, db)) ∧
    (∀ user, authMiddleware jwt now token = Except.ok user →
      getEntries sch jwt now fault db token = listOwnEntries sch fault db user ∧
      postEntries sch jwt now fault db token body =
        createEntry sch fault db user (draftOfBody body) ∧
      getApprovals jwt now fault db token = listPendingForManager fault db user ∧
      putApprove sch jwt now fault db token entryId body =
        setStatus sch fault db user entryId (body.get "status")) := by
  refine ⟨authMiddleware_ok_iff jwt now token, ?_, ?_, ?_⟩
  · intro hempty user
    rw [authMiddleware_ok_iff]
    constructor
    · rintro ⟨t, ht, _, hv⟩
      exact ⟨t, ht, hv⟩
    · rintro ⟨t, ht, hv⟩
      refine ⟨t, ht, ?_, hv⟩
      intro h
      rw [h, hempty] at hv
      exact absurd hv (by simp)
  · intro hno
    cases hres : authMiddleware jwt now token with
    | ok user =>
      obtain ⟨t, ht, hne, hv⟩ := (authMiddleware_ok_iff jwt now token user).1 hres
      exact absurd ⟨t, user, ht, hne, hv⟩ hno
    | error res =>
      have hst : res.status = 401 := by
        rcases authMiddleware_error_status jwt now token res hres with h | h <;> rw [h]
      refine ⟨res, rfl, hst, ?_, ?_, ?_, ?_⟩ <;>
        simp [getEntries, postEntries, getApprovals, putApprove, hres]
  · intro user hok
    simp [getEntries, postEntries, getApprovals, putApprove, hok]

/-- Witness of C14: without a header, with a forged token and with an expired token the
approval route answers 401, not 403, and keeps the store; with a valid token the request
carries the token's user. -/
theorem authMiddleware_gate_witness :
    putApprove decimalSchema toyJwt 0 none sampleDb none "1" [("status", JsVal.str "approved")]
        = (⟨401, Body.msg "No token, authorization denied"⟩, sampleDb) ∧
      putApprove decimalSchema toyJwt 0 none sampleDb (some "forged") "1"
          [("status", JsVal.str "approved")]
        = (⟨401, Body.msg "Token is not valid"⟩, sampleDb) ∧
      putApprove decimalSchema toyJwt tokenLifetime none sampleDb (some "bob-token") "1"
          [("status", JsVal.str "approved")]
        = (⟨401, Body.msg "Token is not valid"⟩, sampleDb) ∧
      (authMiddleware toyJwt 0 (some "bob-token") = Except.ok bob ↔
        ∃ t, some "bob-token" = some t ∧ toyJwt.verify 0 t = some bob) :=
  ⟨by decide, by decide, by decide,
    (authMiddleware_gate decimalSchema toyJwt 0 none sampleDb (some "bob-token") "1" []).2.1
      (by decide) bob⟩

/-- C15: for every required role and every identity, `requireRole` calls next exactly
when the identity's role is that very string; otherwise it answers 403 "Access denied.
(role)s only." and does not call next. Hence both manager routes answer 403 to every
verified token whose role is "employee", whatever the driver state, the path parameter and
the body, and return the store untouched; a manager's token passes to the handler. -/
theorem requireRole_exact (sch : Schema) (jwt : Jwt) (now : Nat) (fault : Option String)
    (db : Db) (role : String) (user : Identity) (entryId : String) (body : JsObject) :
    (requireRole role user = none ↔ user.role = role) ∧
    (user.role ≠ role →
      requireRole role user = some ⟨403, Body.msg ("Access denied. " ++ role ++ "s only.")⟩) ∧
    requireManager = requireRole "manager" ∧
    (∀ (token : Option String) (t : String), token = some t → t ≠ "" →
      jwt.verify now t = some user → user.role = "employee" →
      getApprovals jwt now fault db token =
          (⟨403, Body.msg "Access denied. managers only."⟩, db) ∧
        putApprove sch jwt now fault db token entryId body =
          (⟨403, Body.msg "Access denied. managers only."⟩, db)) ∧
    (∀ (token : Option String) (t : String), token = some t → t ≠ "" →
      jwt.verify now t = some user → user.role = "manager" →
      getApprovals jwt now fault db token = approvalsHandler fault db user ∧
        putApprove sch jwt now fault db token entryId body =
          approveHandler sch fault db entryId (body.get "status")) := by
  refine ⟨?_, ?_, rfl, ?_, ?_⟩
  · by_cases h : user.role = role <;> simp [requireRole, h]
  · intro h
    simp [requireRole, h]
  · intro token t htok hne hver hrole
    have hauth := authMiddleware_of_verified jwt now token t user htok hne hver
    have hreq : requireManager user =
        some ⟨403, Body.msg "Access denied. managers only."⟩ := by
      simp [requireManager, requireRole, hrole]
    simp [getApprovals, putApprove, hauth, listPendingForManager, setStatus, hreq]
  · intro token t htok hne hver hrole
    have hauth := authMiddleware_of_verified jwt now token t user htok hne hver
    simp [getApprovals, putApprove, hauth, listPendingForManager, setStatus,
      requireManager_manager user hrole]

/-- Witness of C15: the token of an employee on both manager routes, and the role
"Manager", which is not the string "manager". -/
theorem requireRole_exact_witness :
    (getApprovals toyJwt 0 none sampleDb (some "bob-token") =
        (⟨403, Body.msg "Access denied. managers only."⟩, sampleDb) ∧
      putApprove decimalSchema toyJwt 0 none sampleDb (some "bob-token") "1"
          [("status", JsVal.str "approved")] =
        (⟨403, Body.msg "Access denied. managers only."⟩, sampleDb)) ∧
      requireRole "manager" ⟨1, "Manager"⟩ =
        some ⟨403, Body.msg ("Access denied. " ++ "manager" ++ "s only.")⟩ :=
  ⟨(requireRole_exact decimalSchema toyJwt 0 none sampleDb "manager" bob "1"
      [("status", JsVal.str "approved")]).2.2.2.1 (some "bob-token") "bob-token" rfl
      (by decide) (by decide) (by decide),
    (requireRole_exact decimalSchema toyJwt 0 none sampleDb "manager" ⟨1, "Manager"⟩ "1"
      []).2.1 (by decide)⟩

/-! ## `register` and `login` -/

/-- The statement of `insertUser` either raises or adds the row built from the store's
reading of the parameters. -/
theorem insertUser_cases (sch : Schema) (db : Db) (email : JsVal) (h : String)
    (fullName role managerId : JsVal) :
    (∃ msg, insertUser sch db email h fullName role managerId = Except.error msg) ∨
    ∃ (e : String) (name : Option String) (r : String) (m : Option Nat),
      sch.nullableText email = some (some e) ∧ sch.nullableText fullName = some name ∧
      sch.nullableText role = some (some r) ∧ sch.nullableInt managerId = some m ∧
      insertUser sch db email h fullName role managerId =
        Except.ok (⟨db.users_id_seq, e, h, name, r, m⟩,
          afterRegister db ⟨db.users_id_seq, e, h, name, r, m⟩) := by
  unfold insertUser
  split
  · rename_i e name r m he hn hr hm
    exact Or.inr ⟨e, name, r, m, he, hn, hr, hm, rfl⟩
  · exact Or.inl ⟨_, rfl⟩

/-- A call of `register` answers 500 or 400 and leaves the store, or it adds one user
whose email no stored user has and answers with a token for the new id and role. -/
theorem register_cases (sch : Schema) (bc : Bcrypt) (jwt : Jwt) (now : Nat) (salt : String)
    (f1 f2 : Option String) (db : Db) (body : JsObject) :
    register sch bc jwt now salt f1 f2 db body = (⟨500, Body.text "Server error"⟩, db) ∨
    register sch bc jwt now salt f1 f2 db body = (⟨400, Body.msg "User already exists"⟩, db) ∨
    ∃ (e h : String) (name : Option String) (r : String) (m : Option Nat),
      sch.nullableText (body.get "email") = some (some e) ∧
      (∀ u ∈ db.users, u.email ≠ e) ∧
      bc.hash (body.get "password") salt = some h ∧
      sch.nullableText (body.get "fullName") = some name ∧
      sch.nullableText (body.get "role") = some (some r) ∧
      sch.nullableInt (orNull (body.get "managerId")) = some m ∧
      register sch bc jwt now salt f1 f2 db body =
        (⟨200, Body.token (jwt.sign now tokenLifetime ⟨db.users_id_seq, r⟩)⟩,
          afterRegister db ⟨db.users_id_seq, e, h, name, r, m⟩) := by
  unfold register
  cases f1 with
  | some err => exact Or.inl (by simp [poolQuery])
  | none =>
    simp only [poolQuery]
    cases hsel : selectUsersByEmail sch db (body.get "email") with
    | error err => exact Or.inl rfl
    | ok rows =>
      simp only []
      by_cases hlen : rows.length > 0
      · exact Or.inr (Or.inl (by simp [hlen]))
      · simp only [hlen, if_false]
        have hrows : rows = [] := by
          cases rows with
          | nil => rfl
          | cons a l => simp at hlen
        cases hh : bc.hash (body.get "password") salt with
        | none => exact Or.inl rfl
        | some h =>
          simp only []
          cases f2 with
          | some err => exact Or.inl rfl
          | none =>
            rcases insertUser_cases sch db (body.get "email") h (body.get "fullName")
              (body.get "role") (orNull (body.get "managerId")) with
              ⟨msg, hins⟩ | ⟨e, name, r, m, he, hn, hr, hm, hins⟩
            · exact Or.inl (by simp only [hins])
            · refine Or.inr (Or.inr ⟨e, h, name, r, m, he, ?_, rfl, hn, hr, hm, ?_⟩)
              · intro u hu hue
                unfold selectUsersByEmail at hsel
                simp only [he] at hsel
                injection hsel with hsel
                rw [hrows] at hsel
                have hmem : u ∈ db.users.filter (fun u => u.email == e) := by
                  rw [List.mem_filter]
                  exact ⟨hu, by simp [hue]⟩
                rw [hsel] at hmem
                exact absurd hmem (List.not_mem_nil u)
              · simp only [hins]

theorem register_taken (sch : Schema) (bc : Bcrypt) (jwt : Jwt) (now : Nat) (salt : String)
    (f2 : Option String) (db : Db) (body : JsObject) (e : String) (u : User)
    (he : sch.nullableText (body.get "email") = some (some e))
    (hu : u ∈ db.users) (hue : u.email = e) :
    register sch bc jwt now salt none f2 db body =
      (⟨400, Body.msg "User already exists"⟩, db) := by
  have hmem : u ∈ db.users.filter (fun u => u.email == e) := by
    rw [List.mem_filter]
    exact ⟨hu, by simp [hue]⟩
  have hlen : (db.users.filter (fun u => u.email == e)).length > 0 :=
    List.length_pos_of_mem hmem
  simp [register, poolQuery, selectUsersByEmail, he, hlen]

theorem selectUsersByEmail_ok (sch : Schema) (db : Db) (email : JsVal) (em : Option String)
    (hconv : sch.nullableText email = some em) :
    selectUsersByEmail sch db email = Except.ok (usersWithEmail db em) := by
  unfold selectUsersByEmail
  cases em <;> simp [hconv, usersWithEmail]

theorem login_unknown (sch : Schema) (bc : Bcrypt) (jwt : Jwt) (now : Nat) (db : Db)
    (body : JsObject) (em : Option String)
    (hconv : sch.nullableText (body.get "email") = some em)
    (hnone : userByEmail db em = none) :
    login sch bc jwt now none db body = (⟨400, Body.msg "Invalid credentials"⟩, db) := by
  have hrows : usersWithEmail db em = [] := by
    cases em with
    | none => rfl
    | some e =>
      simp only [userByEmail] at hnone
      simp only [usersWithEmail, List.filter_eq_nil_iff]
      intro u hu
      exact List.find?_eq_none.1 hnone u hu
  simp only [login, poolQuery, selectUsersByEmail_ok sch db _ em hconv, hrows]

theorem login_known (sch : Schema) (bc : Bcrypt) (jwt : Jwt) (now : Nat) (db : Db)
    (body : JsObject) (em : Option String) (u : User)
    (hconv : sch.nullableText (body.get "email") = some em)
    (hsome : userByEmail db em = some u) :
    login sch bc jwt now none db body =
      match bc.compare (body.get "password") u.password with
      | none => (⟨500, Body.text "Server error"⟩, db)
      | some false => (⟨400, Body.msg "Invalid credentials"⟩, db)
      | some true => (⟨200, Body.token (jwt.sign now tokenLifetime ⟨u.id, u.role⟩)⟩, db) := by
  cases em with
  | none => simp [userByEmail] at hsome
  | some e =>
    simp only [userByEmail] at hsome
    obtain ⟨rest, hr⟩ := filter_cons_of_find (fun u : User => u.email == e) db.users u hsome
    simp only [login, poolQuery, selectUsersByEmail_ok sch db _ (some e) hconv, usersWithEmail,
      hr]

/-- C16: let a registration with email `e`, a password and role `r` succeed (status 200).
Its token is issued for the new id and `r`. If compare accepts the password against the
hash that hash made of it, a following login with `e` and the same password answers 200
with a token for that id and `r`, and leaves the store; if verify inverts sign on that
token at the time it is presented, the verified payload is that id with role `r`. The id
is the one of the user row that the registration has added. -/
theorem register_then_login (sch : Schema) (bc : Bcrypt) (jwt : Jwt) (t0 t1 t2 : Nat)
    (salt : String) (f1 f2 : Option String) (db : Db) (body body' : JsObject) (e r : String)
    (he : body.get "email" = JsVal.str e) (hr : body.get "role" = JsVal.str r)
    (hreg : (register sch bc jwt t0 salt f1 f2 db body).1.status = 200)
    (he' : JsObject.get body' "email" = JsVal.str e)
    (hp' : JsObject.get body' "password" = body.get "password")
    (hcmp : ∀ h, bc.hash (body.get "password") salt = some h →
      bc.compare (body.get "password") h = some true)
    (hver : jwt.verify t2 (jwt.sign t1 tokenLifetime ⟨db.users_id_seq, r⟩) =
      some ⟨db.users_id_seq, r⟩) :
    (register sch bc jwt t0 salt f1 f2 db body).1 =
        ⟨200, Body.token (jwt.sign t0 tokenLifetime ⟨db.users_id_seq, r⟩)⟩ ∧
      (∃ u ∈ (register sch bc jwt t0 salt f1 f2 db body).2.users,
        u.id = db.users_id_seq ∧ u.email = e ∧ u.role = r) ∧
      ∃ tok, login sch bc jwt t1 none (register sch bc jwt t0 salt f1 f2 db body).2 body' =
          (⟨200, Body.token tok⟩, (register sch bc jwt t0 salt f1 f2 db body).2) ∧
        tok = jwt.sign t1 tokenLifetime ⟨db.users_id_seq, r⟩ ∧
        jwt.verify t2 tok = some ⟨db.users_id_seq, r⟩ := by
  have hse : sch.nullableText (JsVal.str e) = some (some e) := rfl
  have hsr : sch.nullableText (JsVal.str r) = some (some r) := rfl
  rcases register_cases sch bc jwt t0 salt f1 f2 db body with h | h | h
  · rw [h] at hreg
    exact absurd (show (500 : Nat) = 200 from hreg) (by decide)
  · rw [h] at hreg
    exact absurd (show (400 : Nat) = 200 from hreg) (by decide)
  · obtain ⟨e0, h0, name, r0, m, hemail, hfree, hhash, _, hrole, _, hres⟩ := h
    rw [he, hse] at hemail
    rw [hr, hsr] at hrole
    have hee : e = e0 := by
      injection hemail with h1
      injection h1
    have hrr : r = r0 := by
      injection hrole with h1
      injection h1
    subst hee
    subst hrr
    rw [hres]
    refine ⟨rfl, ⟨⟨db.users_id_seq, e, h0, name, r, m⟩, by simp [afterRegister], rfl, rfl, rfl⟩,
      jwt.sign t1 tokenLifetime ⟨db.users_id_seq, r⟩, ?_, rfl, hver⟩
    have hconv : sch.nullableText (JsObject.get body' "email") = some (some e) := by
      rw [he']
      rfl
    have hfind : userByEmail (afterRegister db ⟨db.users_id_seq, e, h0, name, r, m⟩) (some e)
        = some ⟨db.users_id_seq, e, h0, name, r, m⟩ := by
      simp only [userByEmail, afterRegister, List.find?_append]
      have hnone : db.users.find? (fun u => u.email == e) = none := by
        rw [List.find?_eq_none]
        intro u hu
        simpa using hfree u hu
      simp [hnone]
    rw [login_known sch bc jwt t1 _ body' (some e) _ hconv hfind, hp', hcmp h0 hhash]

/-- Witness of C16: a new employee registers at time 0 and logs in at time 60; the token
is presented at time 120. -/
theorem register_then_login_witness :
    (register decimalSchema toyBcrypt toyJwt 0 "salt" none none sampleDb
        [("email", JsVal.str "carol@company.com"), ("password", JsVal.str "pw"),
          ("fullName", JsVal.str "Carol"), ("role", JsVal.str "employee"),
          ("managerId", JsVal.str "1")]).1 =
        ⟨200, Body.token (toyJwt.sign 0 tokenLifetime ⟨sampleDb.users_id_seq, "employee"⟩)⟩ ∧
      (∃ u ∈ (register decimalSchema toyBcrypt toyJwt 0 "salt" none none sampleDb
          [("email", JsVal.str "carol@company.com"), ("password", JsVal.str "pw"),
            ("fullName", JsVal.str "Carol"), ("role", JsVal.str "employee"),
            ("managerId", JsVal.str "1")]).2.users,
        u.id = sampleDb.users_id_seq ∧ u.email = "carol@company.com" ∧ u.role = "employee") ∧
      ∃ tok, login decimalSchema toyBcrypt toyJwt 60 none
          (register decimalSchema toyBcrypt toyJwt 0 "salt" none none sampleDb
            [("email", JsVal.str "carol@company.com"), ("password", JsVal.str "pw"),
              ("fullName", JsVal.str "Carol"), ("role", JsVal.str "employee"),
              ("managerId", JsVal.str "1")]).2
          [("email", JsVal.str "carol@company.com"), ("password", JsVal.str "pw")] =
          (⟨200, Body.token tok⟩,
            (register decimalSchema toyBcrypt toyJwt 0 "salt" none none sampleDb
              [("email", JsVal.str "carol@company.com"), ("password", JsVal.str "pw"),
                ("fullName", JsVal.str "Carol"), ("role", JsVal.str "employee"),
                ("managerId", JsVal.str "1")]).2) ∧
        tok = toyJwt.sign 60 tokenLifetime ⟨sampleDb.users_id_seq, "employee"⟩ ∧
        toyJwt.verify 120 tok = some ⟨sampleDb.users_id_seq, "employee"⟩ :=
  register_then_login decimalSchema toyBcrypt toyJwt 0 60 120 "salt" none none sampleDb
    [("email", JsVal.str "carol@company.com"), ("password", JsVal.str "pw"),
      ("fullName", JsVal.str "Carol"), ("role", JsVal.str "employee"),
      ("managerId", JsVal.str "1")]
    [("email", JsVal.str "carol@company.com"), ("password", JsVal.str "pw")]
    "carol@company.com" "employee" (by decide) (by decide) (by decide) (by decide) (by decide)
    (fun h hh => by
      have hh' : h = "salt$pw" := (Option.some.inj hh).symm
      rw [hh']
      decide)
    (by decide)

theorem userByEmail_mem (db : Db) (em : Option String) (u : User)
    (h : userByEmail db em = some u) : u ∈ db.users := by
  cases em with
  | none => simp [userByEmail] at h
  | some e => exact List.mem_of_find?_eq_some h

theorem selectUsersByEmail_rows (sch : Schema) (db : Db) (email : JsVal) (rows : List User)
    (h : selectUsersByEmail sch db email = Except.ok rows) (u : User) :
    u ∈ rows ↔ u ∈ db.users ∧ sch.nullableText email = some (some u.email) := by
  unfold selectUsersByEmail at h
  cases hconv : sch.nullableText email with
  | none =>
    rw [hconv] at h
    exact Except.noConfusion h
  | some em =>
    cases em with
    | none =>
      rw [hconv] at h
      injection h with h
      rw [← h]
      simp
    | some e =>
      rw [hconv] at h
      injection h with h
      rw [← h, List.mem_filter]
      simp only [beq_iff_eq, Option.some.injEq]
      constructor
      · rintro ⟨hu, hue⟩
        exact ⟨hu, hue.symm⟩
      · rintro ⟨hu, hue⟩
        exact ⟨hu, hue.symm⟩

/-- The answer of `login` with a working driver, by the result of the SELECT and the
verdict of compare on `rows[0]`. -/
theorem login_eval (sch : Schema) (bc : Bcrypt) (jwt : Jwt) (now : Nat) (db : Db)
    (body : JsObject) :
    login sch bc jwt now none db body =
      match selectUsersByEmail sch db (body.get "email") with
      | Except.error _ => (⟨500, Body.text "Server error"⟩, db)
      | Except.ok [] => (⟨400, Body.msg "Invalid credentials"⟩, db)
      | Except.ok (user :: _) =>
        match bc.compare (body.get "password") user.password with
        | none => (⟨500, Body.text "Server error"⟩, db)
        | some false => (⟨400, Body.msg "Invalid credentials"⟩, db)
        | some true =>
          (⟨200, Body.token (jwt.sign now tokenLifetime ⟨user.id, user.role⟩)⟩, db) := by
  simp only [login, poolQuery]

/-- C17, as stated, fails: for a known email and a body without password, compare throws
and the route answers 500, not 400 "Invalid credentials"; the same body with an unknown
email is answered 400. -/
theorem login_missing_password :
    userByEmail sampleDb (some "employee1@company.com") =
        some ⟨2, "employee1@company.com", "h2", some "Bob Employee", "employee", some 1⟩ ∧
      login decimalSchema toyBcrypt toyJwt 0 none sampleDb
          [("email", JsVal.str "employee1@company.com")] =
        (⟨500, Body.text "Server error"⟩, sampleDb) ∧
      login decimalSchema toyBcrypt toyJwt 0 none sampleDb
          [("email", JsVal.str "nobody@company.com")] =
        (⟨400, Body.msg "Invalid credentials"⟩, sampleDb) := by
  decide

/-- C17, amended: with a working driver, `login` answers with a token exactly when the
SELECT finds a user with the given email and compare accepts the given password against
the stored hash of that user (the first row); the token is issued for that user's id and
role. It answers 400 "Invalid credentials", the same for both, exactly when no user has
the email or compare rejects the password. In the remaining cases, when compare throws on
the password or the store cannot read the email, it answers 500 "Server error". A token
is issued in the first case only, and the store is never changed. -/
theorem login_token_iff (sch : Schema) (bc : Bcrypt) (jwt : Jwt) (now : Nat) (db : Db)
    (body : JsObject) :
    ((∃ tok, (login sch bc jwt now none db body).1 = ⟨200, Body.token tok⟩) ↔
      ∃ u rest, selectUsersByEmail sch db (body.get "email") = Except.ok (u :: rest) ∧
        bc.compare (body.get "password") u.password = some true) ∧
    (∀ u rest, selectUsersByEmail sch db (body.get "email") = Except.ok (u :: rest) →
      bc.compare (body.get "password") u.password = some true →
      login sch bc jwt now none db body =
        (⟨200, Body.token (jwt.sign now tokenLifetime ⟨u.id, u.role⟩)⟩, db)) ∧
    (login sch bc jwt now none db body = (⟨400, Body.msg "Invalid credentials"⟩, db) ↔
      selectUsersByEmail sch db (body.get "email") = Except.ok [] ∨
      ∃ u rest, selectUsersByEmail sch db (body.get "email") = Except.ok (u :: rest) ∧
        bc.compare (body.get "password") u.password = some false) ∧
    (login sch bc jwt now none db body = (⟨500, Body.text "Server error"⟩, db) ↔
      (∃ e, selectUsersByEmail sch db (body.get "email") = Except.error e) ∨
      ∃ u rest, selectUsersByEmail sch db (body.get "email") = Except.ok (u :: rest) ∧
        bc.compare (body.get "password") u.password = none) ∧
    (∀ rows, selectUsersByEmail sch db (body.get "email") = Except.ok rows →
      ∀ u, u ∈ rows ↔
        u ∈ db.users ∧ sch.nullableText (body.get "email") = some (some u.email)) ∧
    (∀ tok, (login sch bc jwt now none db body).1.body = Body.token tok →
      (login sch bc jwt now none db body).1.status = 200) ∧
    (login sch bc jwt now none db body).2 = db := by
  have hev := login_eval sch bc jwt now db body
  refine ⟨?_, ?_, ?_, ?_,
    fun rows h u => selectUsersByEmail_rows sch db (body.get "email") rows h u, ?_, ?_⟩
  · rw [hev]
    cases hsel : selectUsersByEmail sch db (body.get "email") with
    | error e => simp
    | ok rows =>
      cases rows with
      | nil => simp
      | cons u rest =>
        cases hc : bc.compare (body.get "password") u.password with
        | none => simp [hc]
        | some b => cases b <;> simp [hc]
  · intro u rest hsel hc
    rw [hev, hsel]
    simp only [hc]
  · rw [hev]
    cases hsel : selectUsersByEmail sch db (body.get "email") with
    | error e => simp
    | ok rows =>
      cases rows with
      | nil => simp
      | cons u rest =>
        cases hc : bc.compare (body.get "password") u.password with
        | none => simp [hc]
        | some b => cases b <;> simp [hc]
  · rw [hev]
    cases hsel : selectUsersByEmail sch db (body.get "email") with
    | error e => simp
    | ok rows =>
      cases rows with
      | nil => simp
      | cons u rest =>
        cases hc : bc.compare (body.get "password") u.password with
        | none => simp [hc]
        | some b => cases b <;> simp [hc]
  · intro tok
    rw [hev]
    cases hsel : selectUsersByEmail sch db (body.get "email") with
    | error e => simp
    | ok rows =>
      cases rows with
      | nil => simp
      | cons u rest =>
        cases hc : bc.compare (body.get "password") u.password with
        | none => simp [hc]
        | some b => cases b <;> simp [hc]
  · rw [hev]
    cases hsel : selectUsersByEmail sch db (body.get "email") with
    | error e => rfl
    | ok rows =>
      cases rows with
      | nil => rfl
      | cons u rest =>
        cases hc : bc.compare (body.get "password") u.password with
        | none => simp only [hc]
        | some b => cases b <;> simp only [hc]

/-- Witness of C17: an unknown email and a wrong password get the same answer, and the
right password gets a token. -/
theorem login_token_iff_witness :
    login decimalSchema toyBcrypt toyJwt 0 none sampleDb
        [("email", JsVal.str "nobody@company.com"), ("password", JsVal.str "pw")] =
        (⟨400, Body.msg "Invalid credentials"⟩, sampleDb) ∧
      login decimalSchema toyBcrypt toyJwt 0 none sampleDb
        [("email", JsVal.str "employee1@company.com"), ("password", JsVal.str "pw")] =
        (⟨400, Body.msg "Invalid credentials"⟩, sampleDb) ∧
      login decimalSchema toyBcrypt toyJwt 0 none
          (afterRegister sampleDb ⟨6, "carol@company.com", "salt$pw", none, "employee", none⟩)
          [("email", JsVal.str "carol@company.com"), ("password", JsVal.str "pw")] =
        (⟨200, Body.token (toyJwt.sign 0 tokenLifetime ⟨6, "employee"⟩)⟩,
          afterRegister sampleDb
            ⟨6, "carol@company.com", "salt$pw", none, "employee", none⟩) :=
  ⟨(login_token_iff decimalSchema toyBcrypt toyJwt 0 sampleDb
      [("email", JsVal.str "nobody@company.com"), ("password", JsVal.str "pw")]).2.2.1.2
      (Or.inl rfl),
    (login_token_iff decimalSchema toyBcrypt toyJwt 0 sampleDb
      [("email", JsVal.str "employee1@company.com"), ("password", JsVal.str "pw")]).2.2.1.2
      (Or.inr ⟨⟨2, "employee1@company.com", "h2", some "Bob Employee", "employee", some 1⟩,
        [], rfl, by decide⟩),
    (login_token_iff decimalSchema toyBcrypt toyJwt 0
      (afterRegister sampleDb ⟨6, "carol@company.com", "salt$pw", none, "employee", none⟩)
      [("email", JsVal.str "carol@company.com"), ("password", JsVal.str "pw")]).2.1
      ⟨6, "carol@company.com", "salt$pw", none, "employee", none⟩ [] rfl (by decide)⟩

theorem register_keeps_unique (sch : Schema) (bc : Bcrypt) (jwt : Jwt) (now : Nat)
    (salt : String) (f1 f2 : Option String) (db : Db) (body : JsObject)
    (h : (db.users.map (fun u => u.email)).Nodup) :
    ((register sch bc jwt now salt f1 f2 db body).2.users.map (fun u => u.email)).Nodup := by
  rcases register_cases sch bc jwt now salt f1 f2 db body with hr | hr | hr
  · rw [hr]
    exact h
  · rw [hr]
    exact h
  · obtain ⟨e, h0, name, r, m, _, hfree, _, _, _, _, hres⟩ := hr
    rw [hres]
    simp only [afterRegister, List.map_append, List.map_cons, List.map_nil]
    rw [List.nodup_append]
    refine ⟨h, List.nodup_singleton e, ?_⟩
    intro a ha hb
    rw [List.mem_singleton] at hb
    obtain ⟨u, hu, hue⟩ := List.mem_map.1 ha
    exact hfree u hu (by rw [hue, hb])

theorem registerAll_keeps_unique (sch : Schema) (bc : Bcrypt) (jwt : Jwt) :
    ∀ (calls : List RegisterCall) (db : Db), (db.users.map (fun u => u.email)).Nodup →
      ((registerAll sch bc jwt db calls).users.map (fun u => u.email)).Nodup
  | [], _, h => h
  | c :: cs, db, h =>
    registerAll_keeps_unique sch bc jwt cs _
      (register_keeps_unique sch bc jwt c.now c.salt c.faultSelect c.faultInsert db c.body h)

/-- C18: a `register` call whose email the store reads as the email of a stored user adds
no user row and issues no token, whatever the driver state, and with a working driver it
answers 400 "User already exists". So if the emails of the stored users are pairwise
different, they stay so after every sequence of register calls. -/
theorem register_taken_email (sch : Schema) (bc : Bcrypt) (jwt : Jwt) (db : Db) :
    (∀ (now : Nat) (salt : String) (f1 f2 : Option String) (body : JsObject) (e : String)
        (u : User),
      sch.nullableText (body.get "email") = some (some e) → u ∈ db.users → u.email = e →
      (register sch bc jwt now salt f1 f2 db body).2 = db ∧
        (∀ tok, (register sch bc jwt now salt f1 f2 db body).1.body ≠ Body.token tok) ∧
        register sch bc jwt now salt none f2 db body =
          (⟨400, Body.msg "User already exists"⟩, db)) ∧
    (∀ calls : List RegisterCall, (db.users.map (fun u => u.email)).Nodup →
      ((registerAll sch bc jwt db calls).users.map (fun u => u.email)).Nodup) := by
  refine ⟨?_, fun calls h => registerAll_keeps_unique sch bc jwt calls db h⟩
  intro now salt f1 f2 body e u he hu hue
  refine ⟨?_, ?_, register_taken sch bc jwt now salt f2 db body e u he hu hue⟩
  · rcases register_cases sch bc jwt now salt f1 f2 db body with hr | hr | hr
    · rw [hr]
    · rw [hr]
    · obtain ⟨e0, h0, name, r, m, he0, hfree, _⟩ := hr
      rw [he] at he0
      have hee : e = e0 := by
        injection he0 with h1
        injection h1
      exact absurd (hue.trans hee) (hfree u hu)
  · intro tok
    rcases register_cases sch bc jwt now salt f1 f2 db body with hr | hr | hr
    · rw [hr]
      exact fun h => Body.noConfusion h
    · rw [hr]
      exact fun h => Body.noConfusion h
    · obtain ⟨e0, h0, name, r, m, he0, hfree, _⟩ := hr
      rw [he] at he0
      have hee : e = e0 := by
        injection he0 with h1
        injection h1
      exact absurd (hue.trans hee) (hfree u hu)

/-- Witness of C18: the email of a stored user is registered again, and a run of three
calls, two of them with the same new email, keeps the emails different. -/
theorem register_taken_email_witness :
    register decimalSchema toyBcrypt toyJwt 0 "salt" none none sampleDb
        [("email", JsVal.str "employee1@company.com"), ("password", JsVal.str "pw"),
          ("role", JsVal.str "manager")] =
        (⟨400, Body.msg "User already exists"⟩, sampleDb) ∧
      ((registerAll decimalSchema toyBcrypt toyJwt sampleDb
        [⟨0, "s1", none, none, [("email", JsVal.str "carol@company.com"),
            ("password", JsVal.str "pw"), ("role", JsVal.str "employee")]⟩,
         ⟨1, "s2", none, none, [("email", JsVal.str "carol@company.com"),
            ("password", JsVal.str "other"), ("role", JsVal.str "manager")]⟩,
         ⟨2, "s3", none, none, [("email", JsVal.str "dave@company.com"),
            ("password", JsVal.str "pw"), ("role", JsVal.str "employee")]⟩]).users.map
        (fun u => u.email)).Nodup :=
  ⟨((register_taken_email decimalSchema toyBcrypt toyJwt sampleDb).1 0 "salt" none none
      [("email", JsVal.str "employee1@company.com"), ("password", JsVal.str "pw"),
        ("role", JsVal.str "manager")]
      "employee1@company.com"
      ⟨2, "employee1@company.com", "h2", some "Bob Employee", "employee", some 1⟩
      (by decide) (by decide) (by decide)).2.2,
    (register_taken_email decimalSchema toyBcrypt toyJwt sampleDb).2 _ (by decide)⟩

theorem hierarchyOk_iff (db : Db) :
    hierarchyOk db = true ↔
      ∀ u ∈ db.users, (u.role = "employee" ∨ u.role = "manager") ∧
        ∀ m, u.manager_id = some m → ∃ v ∈ db.users, v.id = m ∧ v.role = "manager" := by
  simp only [hierarchyOk, List.all_eq_true, Bool.and_eq_true, Bool.or_eq_true, beq_iff_eq]
  constructor
  · intro h u hu
    refine ⟨(h u hu).1, ?_⟩
    intro m hm
    have h2 := (h u hu).2
    rw [hm] at h2
    simpa using h2
  · intro h u hu
    refine ⟨(h u hu).1, ?_⟩
    cases hm : u.manager_id with
    | none => rfl
    | some m =>
      obtain ⟨v, hv, hid, hr⟩ := (h u hu).2 m hm
      simp only [List.any_eq_true, Bool.and_eq_true, beq_iff_eq]
      exact ⟨v, hv, hid, hr⟩

theorem register_keeps_hierarchy (sch : Schema) (bc : Bcrypt) (jwt : Jwt) (c : RegisterCall)
    (db : Db) (h : hierarchyOk db = true) (hc : c.keepsHierarchy sch db) :
    hierarchyOk (register sch bc jwt c.now c.salt c.faultSelect c.faultInsert db c.body).2
      = true := by
  rcases register_cases sch bc jwt c.now c.salt c.faultSelect c.faultInsert db c.body with
    hr | hr | hr
  · rw [hr]
    exact h
  · rw [hr]
    exact h
  · obtain ⟨e, h0, name, r, m, _, _, _, _, hrole, hman, hres⟩ := hr
    rw [hres, hierarchyOk_iff]
    rw [hierarchyOk_iff] at h
    intro u hu
    simp only [afterRegister, List.mem_append, List.mem_singleton] at hu
    rcases hu with hu | hu
    · refine ⟨(h u hu).1, fun k hk => ?_⟩
      obtain ⟨v, hv, hvid, hvr⟩ := (h u hu).2 k hk
      exact ⟨v, by simp [afterRegister, hv], hvid, hvr⟩
    · rw [hu]
      refine ⟨hc.1 r hrole, fun k hk => ?_⟩
      have hk' : m = some k := hk
      rw [hk'] at hman
      obtain ⟨v, hv, hvid, hvr⟩ := hc.2 k hman
      exact ⟨v, by simp [afterRegister, hv], hvid, hvr⟩

/-- C19, as stated, fails: `register` checks neither the role nor the managerId. From the
empty store, a registration with role "admin" is stored, and so is an employee whose
managerId is the id of another employee. -/
theorem register_breaks_hierarchy :
    hierarchyOk ⟨[], [], 1, 1⟩ = true ∧
      (registerAll decimalSchema toyBcrypt toyJwt ⟨[], [], 1, 1⟩
        [⟨0, "s1", none, none, [("email", JsVal.str "root@company.com"),
            ("password", JsVal.str "pw"), ("role", JsVal.str "admin")]⟩]).users =
        [⟨1, "root@company.com", "s1$pw", none, "admin", none⟩] ∧
      hierarchyOk (registerAll decimalSchema toyBcrypt toyJwt ⟨[], [], 1, 1⟩
        [⟨0, "s1", none, none, [("email", JsVal.str "root@company.com"),
            ("password", JsVal.str "pw"), ("role", JsVal.str "admin")]⟩]) = false ∧
      (registerAll decimalSchema toyBcrypt toyJwt ⟨[], [], 1, 1⟩
        [⟨0, "s1", none, none, [("email", JsVal.str "employee1@company.com"),
            ("password", JsVal.str "pw"), ("role", JsVal.str "employee")]⟩,
         ⟨1, "s2", none, none, [("email", JsVal.str "employee2@company.com"),
            ("password", JsVal.str "pw"), ("role", JsVal.str "employee"),
            ("managerId", JsVal.str "1")]⟩]).users =
        [⟨1, "employee1@company.com", "s1$pw", none, "employee", none⟩,
         ⟨2, "employee2@company.com", "s2$pw", none, "employee", some 1⟩] ∧
      hierarchyOk (registerAll decimalSchema toyBcrypt toyJwt ⟨[], [], 1, 1⟩
        [⟨0, "s1", none, none, [("email", JsVal.str "employee1@company.com"),
            ("password", JsVal.str "pw"), ("role", JsVal.str "employee")]⟩,
         ⟨1, "s2", none, none, [("email", JsVal.str "employee2@company.com"),
            ("password", JsVal.str "pw"), ("role", JsVal.str "employee"),
            ("managerId", JsVal.str "1")]⟩]) = false := by
  decide

/-- C19, amended: start from a store in which every role is "employee" or "manager" and
every present manager reference is the id of a stored user with role "manager", and run
register calls each of which supplies a role that is "employee" or "manager" and a
managerId that is absent or the id of a stored user with role "manager". Then the same
holds of the store reached. -/
theorem registerAll_keeps_hierarchy (sch : Schema) (bc : Bcrypt) (jwt : Jwt)
    (calls : List RegisterCall) (db : Db)
    (h : hierarchyOk db = true) (hc : callsKeepHierarchy sch bc jwt db calls) :
    ∀ u ∈ (registerAll sch bc jwt db calls).users,
      (u.role = "employee" ∨ u.role = "manager") ∧
        ∀ m, u.manager_id = some m →
          ∃ v ∈ (registerAll sch bc jwt db calls).users, v.id = m ∧ v.role = "manager" := by
  rw [← hierarchyOk_iff]
  induction calls generalizing db with
  | nil => exact h
  | cons c cs ih =>
    exact ih _ (register_keeps_hierarchy sch bc jwt c db h hc.1) hc.2

/-- Witness of C19: the users of create-test-users.js, a manager and then two employees
of that manager, registered from the empty store. -/
theorem registerAll_keeps_hierarchy_witness :
    hierarchyOk ⟨[], [], 1, 1⟩ = true ∧
    ∀ u ∈ (registerAll decimalSchema toyBcrypt toyJwt ⟨[], [], 1, 1⟩
        [⟨0, "s1", none, none, [("email", JsVal.str "manager@company.com"),
            ("password", JsVal.str "password123"), ("fullName", JsVal.str "Sarah Manager"),
            ("role", JsVal.str "manager")]⟩,
         ⟨1, "s2", none, none, [("email", JsVal.str "employee1@company.com"),
            ("password", JsVal.str "password123"), ("fullName", JsVal.str "Bob Employee"),
            ("role", JsVal.str "employee"), ("managerId", JsVal.str "1")]⟩]).users,
      (u.role = "employee" ∨ u.role = "manager") ∧
        ∀ m, u.manager_id = some m →
          ∃ v ∈ (registerAll decimalSchema toyBcrypt toyJwt ⟨[], [], 1, 1⟩
            [⟨0, "s1", none, none, [("email", JsVal.str "manager@company.com"),
                ("password", JsVal.str "password123"), ("fullName", JsVal.str "Sarah Manager"),
                ("role", JsVal.str "manager")]⟩,
             ⟨1, "s2", none, none, [("email", JsVal.str "employee1@company.com"),
                ("password", JsVal.str "password123"), ("fullName", JsVal.str "Bob Employee"),
                ("role", JsVal.str "employee"), ("managerId", JsVal.str "1")]⟩]).users,
            v.id = m ∧ v.role = "manager" :=
  ⟨by decide, registerAll_keeps_hierarchy decimalSchema toyBcrypt toyJwt
    [⟨0, "s1", none, none, [("email", JsVal.str "manager@company.com"),
        ("password", JsVal.str "password123"), ("fullName", JsVal.str "Sarah Manager"),
        ("role", JsVal.str "manager")]⟩,
     ⟨1, "s2", none, none, [("email", JsVal.str "employee1@company.com"),
        ("password", JsVal.str "password123"), ("fullName", JsVal.str "Bob Employee"),
        ("role", JsVal.str "employee"), ("managerId", JsVal.str "1")]⟩]
    ⟨[], [], 1, 1⟩ (by decide)
    ⟨⟨fun r hr => by
        have h1 : r = "manager" := (Option.some.inj (Option.some.inj hr)).symm
        exact Or.inr h1,
      fun m hm => by
        have h1 : (some none : Option (Option Nat)) = some (some m) := hm
        exact Option.noConfusion (Option.some.inj h1)⟩,
     ⟨fun r hr => by
        have h1 : r = "employee" := (Option.some.inj (Option.some.inj hr)).symm
        exact Or.inl h1,
      fun m hm => by
        have h1 : m = 1 := (Option.some.inj (Option.some.inj hm)).symm
        rw [h1]
        exact ⟨⟨1, "manager@company.com", "s1$password123", some "Sarah Manager", "manager",
          none⟩, by decide, rfl, rfl⟩⟩,
     trivial⟩⟩

/-! ## Store failures -/

/-- C20: whenever a statement of one of the six routes fails with some error `err`, be it
raised by the driver or by the store on the statement's parameters, the route answers
status 500 with the fixed text "Server error" (the auth and manager routes) or
"Server Error" (the entry routes), in which nothing of `err` appears, sends no other
response and returns the store as it was. A driver fault makes every statement fail. -/
theorem store_failure_answers_500 (sch : Schema) (bc : Bcrypt) (jwt : Jwt) (now : Nat)
    (salt : String) (db : Db) (user : Identity) (entryId : String) (status : JsVal)
    (d : Draft) (body : JsObject) (err : String) :
    (∀ (α : Type) (stmt : Except String α), poolQuery (some err) stmt = Except.error err) ∧
    listOwnEntries sch (some err) db user = (⟨500, Body.text "Server Error"⟩, db) ∧
    (∀ fault, d.incomplete = false →
      poolQuery fault (insertTimesheet sch db d user.id) = Except.error err →
      createEntry sch fault db user d = (⟨500, Body.text "Server Error"⟩, db)) ∧
    (user.role = "manager" →
      listPendingForManager (some err) db user = (⟨500, Body.text "Server error"⟩, db)) ∧
    (∀ fault, user.role = "manager" → includes ["approved", "rejected"] status = true →
      poolQuery fault (updateStatus sch db status (JsVal.str entryId)) = Except.error err →
      setStatus sch fault db user entryId status = (⟨500, Body.text "Server error"⟩, db)) ∧
    (∀ fault, poolQuery fault (selectUsersByEmail sch db (body.get "email")) = Except.error err →
      login sch bc jwt now fault db body = (⟨500, Body.text "Server error"⟩, db)) ∧
    (∀ f1 f2, poolQuery f1 (selectUsersByEmail sch db (body.get "email")) = Except.error err →
      register sch bc jwt now salt f1 f2 db body = (⟨500, Body.text "Server error"⟩, db)) ∧
    (∀ f1 f2 h, poolQuery f1 (selectUsersByEmail sch db (body.get "email")) = Except.ok [] →
      bc.hash (body.get "password") salt = some h →
      poolQuery f2 (insertUser sch db (body.get "email") h (body.get "fullName")
        (body.get "role") (orNull (body.get "managerId"))) = Except.error err →
      register sch bc jwt now salt f1 f2 db body = (⟨500, Body.text "Server error"⟩, db)) := by
  refine ⟨fun _ _ => rfl, rfl, ?_, ?_, ?_, ?_, ?_, ?_⟩
  · intro fault hinc hq
    simp only [createEntry, hinc, Bool.false_eq_true, if_false, hq]
  · intro hm
    simp [listPendingForManager, requireManager_manager user hm, approvalsHandler, poolQuery]
  · intro fault hm hinc hq
    simp only [setStatus, requireManager_manager user hm, approveHandler, hinc, Bool.not_true,
      Bool.false_eq_true, if_false, hq]
  · intro fault hq
    simp only [login, hq]
  · intro f1 f2 hq
    simp only [register, hq]
  · intro f1 f2 h hsel hhash hq
    simp only [register, hsel, List.length_nil, gt_iff_lt, lt_self_iff_false, if_false, hhash,
      hq]

/-- Witness of C20: a driver fault on the list of entries, a date the store cannot read
on the insert, and a driver fault on the insert of a registration. -/
theorem store_failure_answers_500_witness :
    listOwnEntries decimalSchema (some "connection refused") sampleDb bob =
        (⟨500, Body.text "Server Error"⟩, sampleDb) ∧
      createEntry decimalSchema none sampleDb bob
          ⟨JsVal.str "Website", JsVal.undefined, JsVal.str "tomorrow", JsVal.str "32400",
            JsVal.str "61200"⟩ = (⟨500, Body.text "Server Error"⟩, sampleDb) ∧
      register decimalSchema toyBcrypt toyJwt 0 "salt" none (some "connection refused") sampleDb
          [("email", JsVal.str "carol@company.com"), ("password", JsVal.str "pw"),
            ("role", JsVal.str "employee")] = (⟨500, Body.text "Server error"⟩, sampleDb) :=
  ⟨(store_failure_answers_500 decimalSchema toyBcrypt toyJwt 0 "salt" sampleDb bob "1"
      JsVal.undefined
      ⟨JsVal.str "Website", JsVal.undefined, JsVal.str "tomorrow", JsVal.str "32400",
        JsVal.str "61200"⟩ [] "connection refused").2.1,
    (store_failure_answers_500 decimalSchema toyBcrypt toyJwt 0 "salt" sampleDb bob "1"
      JsVal.undefined
      ⟨JsVal.str "Website", JsVal.undefined, JsVal.str "tomorrow", JsVal.str "32400",
        JsVal.str "61200"⟩ [] "invalid input syntax").2.2.1 none (by decide) rfl,
    (store_failure_answers_500 decimalSchema toyBcrypt toyJwt 0 "salt" sampleDb bob "1"
      JsVal.undefined
      ⟨JsVal.str "Website", JsVal.undefined, JsVal.str "tomorrow", JsVal.str "32400",
        JsVal.str "61200"⟩
      [("email", JsVal.str "carol@company.com"), ("password", JsVal.str "pw"),
        ("role", JsVal.str "employee")] "connection refused").2.2.2.2.2.2.2 none
      (some "connection refused") "salt$pw" rfl (by decide) rfl⟩

/-! ## `setStatus`: what it leaves alone -/

/-- A call of `setStatus` answered 200 was made by a manager with a valid status and a
readable id, met a working driver and at least one row with that id, and has run the
UPDATE. -/
theorem setStatus_ok_inv (sch : Schema) (fault : Option String) (db : Db) (user : Identity)
    (entryId : String) (status : JsVal)
    (hok : (setStatus sch fault db user entryId status).1.status = 200) :
    ∃ (s : String) (n : Nat) (t : Timesheet) (rest : List Timesheet),
      user.role = "manager" ∧ (s = "approved" ∨ s = "rejected") ∧ status = JsVal.str s ∧
      fault = none ∧ sch.int (JsVal.str entryId) = some n ∧
      db.timesheet.filter (fun r => r.id == n) = t :: rest ∧
      setStatus sch fault db user entryId status =
        (⟨200, Body.entry { t with status := s }⟩, afterUpdate db n s) := by
  by_cases hm : user.role = "manager"
  swap
  · have h403 : requireManager user = some ⟨403, Body.msg "Access denied. managers only."⟩ := by
      simp [requireManager, requireRole, hm]
    simp only [setStatus, h403] at hok
    exact absurd (show (403 : Nat) = 200 from hok) (by decide)
  by_cases hinc : includes ["approved", "rejected"] status = true
  swap
  · simp only [setStatus, requireManager_manager user hm, approveHandler, hinc,
      Bool.not_false, if_true] at hok
    exact absurd (show (400 : Nat) = 200 from hok) (by decide)
  have hs : ∃ s, status = JsVal.str s ∧ (s = "approved" ∨ s = "rejected") := by
    rcases (includes_valid_iff status).1 hinc with h | h
    · exact ⟨"approved", h, Or.inl rfl⟩
    · exact ⟨"rejected", h, Or.inr rfl⟩
  obtain ⟨s, hst, hsv⟩ := hs
  subst hst
  cases fault with
  | some e =>
    simp only [setStatus, requireManager_manager user hm, approveHandler, hinc, Bool.not_true,
      Bool.false_eq_true, if_false, poolQuery] at hok
    exact absurd (show (500 : Nat) = 200 from hok) (by decide)
  | none =>
    cases hid : sch.int (JsVal.str entryId) with
    | none =>
      have hup : updateStatus sch db (JsVal.str s) (JsVal.str entryId) =
          Except.error "invalid input syntax" := by
        simp [updateStatus, Schema.textParam, hid]
      simp only [setStatus, requireManager_manager user hm, approveHandler, hinc, Bool.not_true,
        Bool.false_eq_true, if_false, poolQuery, hup] at hok
      exact absurd (show (500 : Nat) = 200 from hok) (by decide)
    | some n =>
      have hval := setStatus_valid sch db user entryId s n hm hsv hid
      cases hf : db.timesheet.filter (fun r => r.id == n) with
      | nil =>
        rw [hval, hf] at hok
        exact absurd (show (404 : Nat) = 200 from hok) (by decide)
      | cons t rest =>
        refine ⟨s, n, t, rest, hm, hsv, rfl, rfl, rfl, hf, ?_⟩
        rw [hval, hf]
        rfl

theorem filter_key_length (n : Nat) :
    ∀ l : List Timesheet, (l.map (fun t => t.id)).Nodup →
      (l.filter (fun t => t.id == n)).length ≤ 1
  | [], _ => by simp
  | a :: l, h => by
    simp only [List.map_cons, List.nodup_cons] at h
    by_cases ha : a.id = n
    · have habs : ∀ r ∈ l, r.id ≠ n := by
        intro r hr hrn
        exact h.1 (List.mem_map.2 ⟨r, hr, by rw [hrn, ha]⟩)
      simp [List.filter_cons, ha, filter_of_absent n l habs]
    · have ih := filter_key_length n l h.2
      simpa [List.filter_cons, ha] using ih

theorem forall2_update (n : Nat) (s : String) :
    ∀ l : List Timesheet,
      List.Forall₂ (fun old new : Timesheet =>
          new.id = old.id ∧ new.project = old.project ∧
          new.task_description = old.task_description ∧ new.entry_date = old.entry_date ∧
          new.start_time = old.start_time ∧ new.end_time = old.end_time ∧
          new.user_id = old.user_id ∧ (old.id ≠ n → new = old) ∧ (old.id = n → new.status = s))
        l (l.map (fun t => if t.id == n then { t with status := s } else t))
  | [] => List.Forall₂.nil
  | a :: l => by
    refine List.Forall₂.cons ?_ (forall2_update n s l)
    by_cases ha : a.id = n <;> simp [ha]

/-- C22: a call of `setStatus` answered 200 has changed nothing but the status of the rows
with the given id. Table users and both serial counters are as before; table timesheet
has as many rows as before, in the same order; row by row, id, project, task_description,
entry_date, start_time, end_time and user_id are as before, a row with another id is as
before in every column, and a row with the given id has the new status. At least one row
has the given id, and exactly one when ids are a key of the table. -/
theorem setStatus_frame (sch : Schema) (fault : Option String) (db : Db) (user : Identity)
    (entryId : String) (status : JsVal)
    (hok : (setStatus sch fault db user entryId status).1.status = 200) :
    ∃ (s : String) (n : Nat), status = JsVal.str s ∧ sch.int (JsVal.str entryId) = some n ∧
      (setStatus sch fault db user entryId status).2.users = db.users ∧
      (setStatus sch fault db user entryId status).2.users_id_seq = db.users_id_seq ∧
      (setStatus sch fault db user entryId status).2.timesheet_id_seq = db.timesheet_id_seq ∧
      (setStatus sch fault db user entryId status).2.timesheet.length = db.timesheet.length ∧
      List.Forall₂ (fun old new : Timesheet =>
          new.id = old.id ∧ new.project = old.project ∧
          new.task_description = old.task_description ∧ new.entry_date = old.entry_date ∧
          new.start_time = old.start_time ∧ new.end_time = old.end_time ∧
          new.user_id = old.user_id ∧ (old.id ≠ n → new = old) ∧ (old.id = n → new.status = s))
        db.timesheet (setStatus sch fault db user entryId status).2.timesheet ∧
      0 < (db.timesheet.filter (fun t => t.id == n)).length ∧
      ((db.timesheet.map (fun t => t.id)).Nodup →
        (db.timesheet.filter (fun t => t.id == n)).length = 1) := by
  obtain ⟨s, n, t, rest, _, _, hst, _, hid, hf, hres⟩ :=
    setStatus_ok_inv sch fault db user entryId status hok
  rw [hres]
  refine ⟨s, n, hst, hid, rfl, rfl, rfl, ?_, forall2_update n s db.timesheet, ?_, ?_⟩
  · simp [afterUpdate]
  · rw [hf]
    simp
  · intro hk
    have hle := filter_key_length n db.timesheet hk
    rw [hf] at hle ⊢
    simp only [List.length_cons] at hle ⊢
    omega

/-- Witness of C22: the first manager approves entry 1 of the examples. -/
theorem setStatus_frame_witness :
    ∃ (s : String) (n : Nat), JsVal.str "approved" = JsVal.str s ∧
      decimalSchema.int (JsVal.str "1") = some n ∧
      (setStatus decimalSchema none sampleDb sarah "1" (JsVal.str "approved")).2.users
        = sampleDb.users ∧
      (setStatus decimalSchema none sampleDb sarah "1" (JsVal.str "approved")).2.users_id_seq
        = sampleDb.users_id_seq ∧
      (setStatus decimalSchema none sampleDb sarah "1"
        (JsVal.str "approved")).2.timesheet_id_seq = sampleDb.timesheet_id_seq ∧
      (setStatus decimalSchema none sampleDb sarah "1" (JsVal.str "approved")).2.timesheet.length
        = sampleDb.timesheet.length ∧
      List.Forall₂ (fun old new : Timesheet =>
          new.id = old.id ∧ new.project = old.project ∧
          new.task_description = old.task_description ∧ new.entry_date = old.entry_date ∧
          new.start_time = old.start_time ∧ new.end_time = old.end_time ∧
          new.user_id = old.user_id ∧ (old.id ≠ n → new = old) ∧ (old.id = n → new.status = s))
        sampleDb.timesheet
        (setStatus decimalSchema none sampleDb sarah "1" (JsVal.str "approved")).2.timesheet ∧
      0 < (sampleDb.timesheet.filter (fun t => t.id == n)).length ∧
      ((sampleDb.timesheet.map (fun t => t.id)).Nodup →
        (sampleDb.timesheet.filter (fun t => t.id == n)).length = 1) :=
  setStatus_frame decimalSchema none sampleDb sarah "1" (JsVal.str "approved") (by decide)

/-! ## `formatDateForInput` -/

theorem formatDateForInput_east_of_utc (timezoneOffset : Int → Int) (t : Int)
    (h : timezoneOffset t ≤ 0) :
    formatDateForInput timezoneOffset (some t) = localDate timezoneOffset t := by
  have habs : |timezoneOffset t * 60000| = -(timezoneOffset t * 60000) :=
    abs_of_nonpos (by nlinarith)
  simp only [formatDateForInput, localDate, habs]
  congr 1

/-- C23 fails on the code: the claim holds for a missing date and for a zone at or east of
UTC, but west of UTC the function adds the offset where it has to subtract it. At
2024-01-10 20:00 UTC in a zone with getTimezoneOffset() = 300 (UTC-5, local time 15:00 of
2024-01-10) it returns "2024-01-11"; at 2024-01-10 10:00 local time of the same zone it
returns the local date, and so it does in the zone UTC+2 at 23:30 local time. -/
theorem formatDateForInput_west_of_utc :
    formatDateForInput (fun _ => 300) none = "" ∧
      formatDateForInput (fun _ => 300) (some (19732 * 86400000 + 20 * 3600000)) = "2024-01-11" ∧
      localDate (fun _ => 300) (19732 * 86400000 + 20 * 3600000) = "2024-01-10" ∧
      formatDateForInput (fun _ => 300) (some (19732 * 86400000 + 15 * 3600000)) = "2024-01-10" ∧
      localDate (fun _ => 300) (19732 * 86400000 + 15 * 3600000) = "2024-01-10" ∧
      formatDateForInput (fun _ => -120) (some (19732 * 86400000 + 21 * 3600000 + 30 * 60000))
        = "2024-01-10" ∧
      localDate (fun _ => -120) (19732 * 86400000 + 21 * 3600000 + 30 * 60000) = "2024-01-10" := by
  decide

/-! ## Component `App` -/

theorem render_after_login (decodeRole : String → Option JsVal) (s : AppState) (t : String)
    (h : decodeRole t = some (JsVal.str "manager")) :
    (handleLogin decodeRole s t).userRole = JsVal.str "manager" ∧
      render (handleLogin decodeRole s t) = View.managerDashboard := by
  by_cases ht : t = ""
  · subst ht
    simp [handleLogin, authEffect, noToken, render, h]
  · simp [handleLogin, authEffect, noToken, render, h, ht]

theorem role_after_failed_decoding (decodeRole : String → Option JsVal) (s : AppState)
    (t : String) (h : decodeRole t = none) :
    (handleLogin decodeRole s t).userRole = JsVal.str "employee" := by
  by_cases ht : t = ""
  · subst ht
    simp [handleLogin, authEffect, noToken, h]
  · simp [handleLogin, authEffect, noToken, h, ht]

theorem render_after_mount (t : String) (ht : t ≠ "") :
    (mount (some t)).isAuthenticated = true ∧ (mount (some t)).token = some t ∧
      (mount (some t)).userRole = JsVal.null ∧ render (mount (some t)) = View.employeeTimesheet := by
  simp [mount, authEffect, noToken, render, ht]

/-- C24 fails on the code: after a login with a manager's token the role is "manager" and
the dashboard is rendered, and a failed decoding gives the role "employee"; but when the
App is mounted with that token saved in localStorage (a reload of the page), the effect
sets isAuthenticated and nothing decodes the role: the user is authenticated with a token
whose payload role is "manager", userRole is null and the employee timesheet is
rendered. -/
theorem app_reload_forgets_role :
    toyDecodeRole "sarah-token" = some (JsVal.str "manager") ∧
      render (runApp toyDecodeRole (mount none) [AppEvent.login "sarah-token"])
        = View.managerDashboard ∧
      (runApp toyDecodeRole (mount none) [AppEvent.login "sarah-token"]).storage
        = some "sarah-token" ∧
      (mount (some "sarah-token")).isAuthenticated = true ∧
      (mount (some "sarah-token")).token = some "sarah-token" ∧
      (mount (some "sarah-token")).userRole = JsVal.null ∧
      render (mount (some "sarah-token")) = View.employeeTimesheet ∧
      (runApp toyDecodeRole (mount none) [AppEvent.login "forged"]).userRole
        = JsVal.str "employee" := by
  decide

/-! ## Responses and password hashes -/

theorem samePublic_refl_users (db : Db) (us : List User)
    (h : db.users.map erasePassword = us.map erasePassword) :
    samePublic db (withUsers db us) :=
  ⟨h, rfl, rfl, rfl⟩

theorem samePublic_eq_withUsers (db1 db2 : Db) (h : samePublic db1 db2) :
    db2 = withUsers db1 db2.users := by
  obtain ⟨_, h2, h3, h4⟩ := h
  cases db1
  cases db2
  simp only [withUsers] at *
  simp [h2, h3, h4]

theorem filter_erasePassword (p : User → Bool) (hp : ∀ u, p (erasePassword u) = p u)
    (l1 l2 : List User) (h : l1.map erasePassword = l2.map erasePassword) :
    (l1.filter p).map erasePassword = (l2.filter p).map erasePassword := by
  have key : ∀ l : List User, (l.filter p).map erasePassword = (l.map erasePassword).filter p := by
    intro l
    rw [List.filter_map]
    congr 1
    apply List.filter_congr
    intro u _
    exact (hp u).symm
  rw [key l1, key l2, h]

theorem joinPending_samePublic (db1 db2 : Db) (m : Nat) (h : samePublic db1 db2) :
    joinPending db1 m = joinPending db2 m := by
  obtain ⟨hu, ht, _, _⟩ := h
  unfold joinPending
  rw [ht]
  congr 1
  funext t
  have hg : ∀ l : List User, l.map (fun u => (⟨t, u.full_name⟩ : ApprovalRow)) =
      (l.map erasePassword).map (fun u => (⟨t, u.full_name⟩ : ApprovalRow)) := by
    intro l
    rw [List.map_map]
    rfl
  rw [hg, hg (List.filter _ db2.users)]
  congr 1
  exact filter_erasePassword
    (fun u => t.user_id == u.id && u.manager_id == some m && t.status == "pending")
    (fun u => rfl) db1.users db2.users hu

theorem insertTimesheet_withUsers (sch : Schema) (db : Db) (us : List User) (d : Draft)
    (userId : Nat) :
    insertTimesheet sch (withUsers db us) d userId =
      match insertTimesheet sch db d userId with
      | Except.error e => Except.error e
      | Except.ok (row, db') => Except.ok (row, withUsers db' us) := by
  unfold insertTimesheet
  cases sch.textParam d.project <;> cases sch.nullableText d.task_description <;>
    cases sch.date d.entry_date <;> cases sch.time d.start_time <;>
    cases sch.time d.end_time <;> rfl

theorem createEntry_withUsers (sch : Schema) (fault : Option String) (db : Db)
    (us : List User) (user : Identity) (d : Draft) :
    createEntry sch fault (withUsers db us) user d =
      ((createEntry sch fault db user d).1, withUsers (createEntry sch fault db user d).2 us) := by
  unfold createEntry
  by_cases hinc : d.incomplete = true
  · simp [hinc]
  · simp only [hinc, Bool.false_eq_true, if_false]
    cases fault with
    | some e => rfl
    | none =>
      simp only [poolQuery, insertTimesheet_withUsers]
      cases insertTimesheet sch db d user.id with
      | error e => rfl
      | ok r => rfl

theorem updateStatus_withUsers (sch : Schema) (db : Db) (us : List User) (status id : JsVal) :
    updateStatus sch (withUsers db us) status id =
      match updateStatus sch db status id with
      | Except.error e => Except.error e
      | Except.ok (rows, db') => Except.ok (rows, withUsers db' us) := by
  unfold updateStatus
  cases sch.textParam status <;> cases sch.int id <;> rfl

theorem setStatus_withUsers (sch : Schema) (fault : Option String) (db : Db)
    (us : List User) (user : Identity) (entryId : String) (status : JsVal) :
    setStatus sch fault (withUsers db us) user entryId status =
      ((setStatus sch fault db user entryId status).1,
        withUsers (setStatus sch fault db user entryId status).2 us) := by
  unfold setStatus
  cases requireManager user with
  | some res => rfl
  | none =>
    simp only [approveHandler]
    by_cases hinc : includes ["approved", "rejected"] status = true
    · simp only [hinc, Bool.not_true, Bool.false_eq_true, if_false]
      cases fault with
      | some e => rfl
      | none =>
        simp only [poolQuery, updateStatus_withUsers]
        cases updateStatus sch db status (JsVal.str entryId) with
        | error e => rfl
        | ok r =>
          obtain ⟨rows, db'⟩ := r
          cases rows <;> rfl
    · simp [hinc]

theorem createEntry_users (sch : Schema) (fault : Option String) (db : Db) (user : Identity)
    (d : Draft) : (createEntry sch fault db user d).2.users = db.users := by
  rcases createEntry_cases sch fault db user d with ⟨row, hr, _⟩ | hr | hr
  · rw [hr]
    rfl
  · rw [hr]
  · rw [hr]

theorem setStatus_users (sch : Schema) (fault : Option String) (db : Db) (user : Identity)
    (entryId : String) (status : JsVal) :
    (setStatus sch fault db user entryId status).2.users = db.users := by
  unfold setStatus
  cases requireManager user with
  | some res => rfl
  | none =>
    simp only [approveHandler]
    by_cases hinc : includes ["approved", "rejected"] status = true
    · simp only [hinc, Bool.not_true, Bool.false_eq_true, if_false]
      cases fault with
      | some e => rfl
      | none =>
        simp only [poolQuery]
        unfold updateStatus
        cases sch.textParam status <;> cases sch.int (JsVal.str entryId) <;> try rfl
        simp only []
        split <;> rfl
    · simp [hinc]

theorem selectUsersByEmail_samePublic (sch : Schema) (db1 db2 : Db) (email : JsVal)
    (h : samePublic db1 db2) :
    (∃ e1 e2, selectUsersByEmail sch db1 email = Except.error e1 ∧
        selectUsersByEmail sch db2 email = Except.error e2) ∨
    ∃ rows1 rows2, selectUsersByEmail sch db1 email = Except.ok rows1 ∧
      selectUsersByEmail sch db2 email = Except.ok rows2 ∧
      rows1.map erasePassword = rows2.map erasePassword := by
  cases hconv : sch.nullableText email with
  | none =>
    have herr : ∀ db : Db, selectUsersByEmail sch db email =
        Except.error "invalid input syntax" := by
      intro db
      simp [selectUsersByEmail, hconv]
    exact Or.inl ⟨_, _, herr db1, herr db2⟩
  | some em =>
    refine Or.inr ⟨usersWithEmail db1 em, usersWithEmail db2 em,
      selectUsersByEmail_ok sch db1 email em hconv,
      selectUsersByEmail_ok sch db2 email em hconv, ?_⟩
    cases em with
    | none => rfl
    | some e =>
      exact filter_erasePassword (fun u => u.email == e) (fun u => rfl) db1.users db2.users h.1

theorem insertUser_ok_of_conv (sch : Schema) (db : Db) (email : JsVal) (h : String)
    (fullName role managerId : JsVal) (e : String) (name : Option String) (r : String)
    (m : Option Nat)
    (he : sch.nullableText email = some (some e)) (hn : sch.nullableText fullName = some name)
    (hr : sch.nullableText role = some (some r)) (hm : sch.nullableInt managerId = some m) :
    insertUser sch db email h fullName role managerId =
      Except.ok (⟨db.users_id_seq, e, h, name, r, m⟩,
        afterRegister db ⟨db.users_id_seq, e, h, name, r, m⟩) := by
  simp [insertUser, he, hn, hr, hm, afterRegister]

theorem insertUser_samePublic (sch : Schema) (db1 db2 : Db) (email : JsVal) (h : String)
    (fullName role managerId : JsVal) (hs : samePublic db1 db2) :
    (∃ e1 e2, insertUser sch db1 email h fullName role managerId = Except.error e1 ∧
        insertUser sch db2 email h fullName role managerId = Except.error e2) ∨
    ∃ row, insertUser sch db1 email h fullName role managerId =
        Except.ok (row, afterRegister db1 row) ∧
      insertUser sch db2 email h fullName role managerId =
        Except.ok (row, afterRegister db2 row) := by
  rcases insertUser_cases sch db1 email h fullName role managerId with
    ⟨msg1, h1⟩ | ⟨e, name, r, m, he, hn, hr, hm, h1⟩
  · rcases insertUser_cases sch db2 email h fullName role managerId with
      ⟨msg2, h2⟩ | ⟨e, name, r, m, he, hn, hr, hm, _⟩
    · exact Or.inl ⟨msg1, msg2, h1, h2⟩
    · rw [insertUser_ok_of_conv sch db1 email h fullName role managerId e name r m he hn hr hm]
        at h1
      exact Except.noConfusion h1
  · refine Or.inr ⟨⟨db1.users_id_seq, e, h, name, r, m⟩, h1, ?_⟩
    rw [insertUser_ok_of_conv sch db2 email h fullName role managerId e name r m he hn hr hm,
      hs.2.2.1]

theorem afterRegister_samePublic (db1 db2 : Db) (row : User) (h : samePublic db1 db2) :
    samePublic (afterRegister db1 row) (afterRegister db2 row) := by
  obtain ⟨h1, h2, h3, h4⟩ := h
  refine ⟨?_, h2, ?_, h4⟩
  · simp only [afterRegister, List.map_append, h1]
  · simp only [afterRegister, h3]

theorem register_samePublic (sch : Schema) (bc : Bcrypt) (jwt : Jwt) (now : Nat)
    (salt : String) (f1 f2 : Option String) (db1 db2 : Db) (body : JsObject)
    (h : samePublic db1 db2) :
    sameOutcome (register sch bc jwt now salt f1 f2 db1 body)
      (register sch bc jwt now salt f1 f2 db2 body) := by
  cases f1 with
  | some e => exact ⟨rfl, h⟩
  | none =>
    rcases selectUsersByEmail_samePublic sch db1 db2 (body.get "email") h with
      ⟨e1, e2, h1, h2⟩ | ⟨rows1, rows2, h1, h2, hrows⟩
    · simp only [register, poolQuery, h1, h2]
      exact ⟨rfl, h⟩
    · have hlen : rows1.length = rows2.length := by
        simpa using congrArg List.length hrows
      by_cases hpos : rows1.length > 0
      · have hpos2 : rows2.length > 0 := hlen ▸ hpos
        simp only [register, poolQuery, h1, h2, hpos, hpos2, if_true]
        exact ⟨rfl, h⟩
      · have hpos2 : ¬ rows2.length > 0 := hlen ▸ hpos
        cases hh : bc.hash (body.get "password") salt with
        | none =>
          simp only [register, poolQuery, h1, h2, hpos, hpos2, if_false, hh]
          exact ⟨rfl, h⟩
        | some hashed =>
          cases f2 with
          | some e =>
            simp only [register, poolQuery, h1, h2, hpos, hpos2, if_false, hh]
            exact ⟨rfl, h⟩
          | none =>
            rcases insertUser_samePublic sch db1 db2 (body.get "email") hashed
              (body.get "fullName") (body.get "role") (orNull (body.get "managerId")) h with
              ⟨e1, e2, hi1, hi2⟩ | ⟨row, hi1, hi2⟩
            · simp only [register, poolQuery, h1, h2, hpos, hpos2, if_false, hh, hi1, hi2]
              exact ⟨rfl, h⟩
            · simp only [register, poolQuery, h1, h2, hpos, hpos2, if_false, hh, hi1, hi2]
              exact ⟨rfl, afterRegister_samePublic db1 db2 row h⟩

theorem login_store (sch : Schema) (bc : Bcrypt) (jwt : Jwt) (now : Nat)
    (fault : Option String) (db : Db) (body : JsObject) :
    (login sch bc jwt now fault db body).2 = db := by
  unfold login
  split
  · rfl
  · rfl
  · split <;> rfl

theorem login_samePublic (sch : Schema) (bc : Bcrypt) (jwt : Jwt) (now : Nat)
    (fault : Option String) (db1 db2 : Db) (body : JsObject) (h : samePublic db1 db2)
    (hmatch : loginMatch sch bc db1 body = loginMatch sch bc db2 body) :
    (login sch bc jwt now fault db1 body).1 = (login sch bc jwt now fault db2 body).1 := by
  cases fault with
  | some e => rfl
  | none =>
    rcases selectUsersByEmail_samePublic sch db1 db2 (body.get "email") h with
      ⟨e1, e2, h1, h2⟩ | ⟨rows1, rows2, h1, h2, hrows⟩
    · simp only [login, poolQuery, h1, h2]
    · cases rows1 with
      | nil =>
        cases rows2 with
        | nil => simp only [login, poolQuery, h1, h2]
        | cons u2 r2 => simp at hrows
      | cons u1 r1 =>
        cases rows2 with
        | nil => simp at hrows
        | cons u2 r2 =>
          simp only [List.map_cons, List.cons.injEq] at hrows
          have hid : u1.id = u2.id :=
            show (erasePassword u1).id = (erasePassword u2).id from congrArg User.id hrows.1
          have hrole : u1.role = u2.role :=
            show (erasePassword u1).role = (erasePassword u2).role from
              congrArg User.role hrows.1
          simp only [loginMatch, h1, h2, Option.some.injEq] at hmatch
          simp only [login, poolQuery, h1, h2, hmatch, hid, hrole]
          cases bc.compare (body.get "password") u2.password with
          | none => rfl
          | some b => cases b <;> rfl

theorem listOwnEntries_samePublic (sch : Schema) (fault : Option String) (db1 db2 : Db)
    (user : Identity) (h : samePublic db1 db2) :
    sameOutcome (listOwnEntries sch fault db1 user) (listOwnEntries sch fault db2 user) := by
  cases fault with
  | some e => exact ⟨rfl, h⟩
  | none =>
    refine ⟨?_, h⟩
    simp only [listOwnEntries, poolQuery, selectOwn, h.2.1]

theorem createEntry_samePublic (sch : Schema) (fault : Option String) (db1 db2 : Db)
    (user : Identity) (d : Draft) (h : samePublic db1 db2) :
    sameOutcome (createEntry sch fault db1 user d) (createEntry sch fault db2 user d) := by
  rw [samePublic_eq_withUsers db1 db2 h, createEntry_withUsers]
  refine ⟨rfl, samePublic_refl_users _ _ ?_⟩
  rw [createEntry_users]
  exact h.1

theorem listPendingForManager_samePublic (fault : Option String) (db1 db2 : Db)
    (user : Identity) (h : samePublic db1 db2) :
    sameOutcome (listPendingForManager fault db1 user) (listPendingForManager fault db2 user) := by
  unfold listPendingForManager
  cases requireManager user with
  | some res => exact ⟨rfl, h⟩
  | none =>
    cases fault with
    | some e => exact ⟨rfl, h⟩
    | none =>
      refine ⟨?_, h⟩
      simp only [approvalsHandler, poolQuery, selectPending, joinPending_samePublic db1 db2 _ h]

theorem setStatus_samePublic (sch : Schema) (fault : Option String) (db1 db2 : Db)
    (user : Identity) (entryId : String) (status : JsVal) (h : samePublic db1 db2) :
    sameOutcome (setStatus sch fault db1 user entryId status)
      (setStatus sch fault db2 user entryId status) := by
  rw [samePublic_eq_withUsers db1 db2 h, setStatus_withUsers]
  refine ⟨rfl, samePublic_refl_users _ _ ?_⟩
  rw [setStatus_users]
  exact h.1

theorem login_cases (sch : Schema) (bc : Bcrypt) (jwt : Jwt) (now : Nat)
    (fault : Option String) (db : Db) (body : JsObject) :
    login sch bc jwt now fault db body = (⟨500, Body.text "Server error"⟩, db) ∨
    login sch bc jwt now fault db body = (⟨400, Body.msg "Invalid credentials"⟩, db) ∨
    ∃ u ∈ db.users, login sch bc jwt now fault db body =
      (⟨200, Body.token (jwt.sign now tokenLifetime ⟨u.id, u.role⟩)⟩, db) := by
  cases fault with
  | some e => exact Or.inl rfl
  | none =>
    cases hconv : sch.nullableText (body.get "email") with
    | none =>
      left
      simp [login, poolQuery, selectUsersByEmail, hconv]
    | some em =>
      cases hfind : userByEmail db em with
      | none => exact Or.inr (Or.inl (login_unknown sch bc jwt now db body em hconv hfind))
      | some u =>
        rw [login_known sch bc jwt now db body em u hconv hfind]
        cases bc.compare (body.get "password") u.password with
        | none => exact Or.inl rfl
        | some b =>
          cases b with
          | false => exact Or.inr (Or.inl rfl)
          | true => exact Or.inr (Or.inr ⟨u, userByEmail_mem db em u hfind, rfl⟩)

theorem properties_without_password (b : Body) : ∀ ps ∈ b.properties, "password" ∉ ps := by
  intro ps hps
  cases b with
  | msg m =>
    simp only [Body.properties, List.mem_singleton] at hps
    rw [hps]
    decide
  | text s => simp [Body.properties] at hps
  | entry row =>
    simp only [Body.properties, List.mem_singleton] at hps
    rw [hps]
    decide
  | entries rows =>
    simp only [Body.properties, List.mem_map] at hps
    obtain ⟨_, _, rfl⟩ := hps
    decide
  | approvals rows =>
    simp only [Body.properties, List.mem_map] at hps
    obtain ⟨_, _, rfl⟩ := hps
    decide
  | token t =>
    simp only [Body.properties, List.mem_singleton] at hps
    rw [hps]
    decide

/-- C21: let two stores differ at most in the password hashes of their users. Then each of
the routes `GET /api/entries`, `POST /api/entries`, `GET /api/manager/approvals`,
`PUT /api/manager/approve/:id` and `POST /api/auth/register` gives the same response on
both, for every request and driver state, and leaves stores that again differ at most in
password hashes; so does `POST /api/auth/login` whenever the match outcome of compare is
the same on both. No response has a property "password"; a registration or login answered
200 sends a token and nothing else, signed for the id and role of a user. -/
theorem responses_hide_passwords (sch : Schema) (bc : Bcrypt) (jwt : Jwt) (now : Nat)
    (salt : String) (fault f2 : Option String) (db1 db2 : Db) (token : Option String)
    (entryId : String) (body : JsObject) (h : samePublic db1 db2) :
    sameOutcome (getEntries sch jwt now fault db1 token) (getEntries sch jwt now fault db2 token) ∧
    sameOutcome (postEntries sch jwt now fault db1 token body)
      (postEntries sch jwt now fault db2 token body) ∧
    sameOutcome (getApprovals jwt now fault db1 token) (getApprovals jwt now fault db2 token) ∧
    sameOutcome (putApprove sch jwt now fault db1 token entryId body)
      (putApprove sch jwt now fault db2 token entryId body) ∧
    sameOutcome (register sch bc jwt now salt fault f2 db1 body)
      (register sch bc jwt now salt fault f2 db2 body) ∧
    (loginMatch sch bc db1 body = loginMatch sch bc db2 body →
      sameOutcome (login sch bc jwt now fault db1 body) (login sch bc jwt now fault db2 body)) ∧
    (∀ b : Body, ∀ ps ∈ b.properties, "password" ∉ ps) ∧
    ((register sch bc jwt now salt fault f2 db1 body).1.status = 200 →
      ∃ id role, (register sch bc jwt now salt fault f2 db1 body).1.body =
        Body.token (jwt.sign now tokenLifetime ⟨id, role⟩)) ∧
    ((login sch bc jwt now fault db1 body).1.status = 200 →
      ∃ u ∈ db1.users, (login sch bc jwt now fault db1 body).1.body =
        Body.token (jwt.sign now tokenLifetime ⟨u.id, u.role⟩)) := by
  refine ⟨?_, ?_, ?_, ?_, register_samePublic sch bc jwt now salt fault f2 db1 db2 body h, ?_,
    properties_without_password, ?_, ?_⟩
  · unfold getEntries
    cases authMiddleware jwt now token with
    | error res => exact ⟨rfl, h⟩
    | ok user => exact listOwnEntries_samePublic sch fault db1 db2 user h
  · unfold postEntries
    cases authMiddleware jwt now token with
    | error res => exact ⟨rfl, h⟩
    | ok user => exact createEntry_samePublic sch fault db1 db2 user _ h
  · unfold getApprovals
    cases authMiddleware jwt now token with
    | error res => exact ⟨rfl, h⟩
    | ok user => exact listPendingForManager_samePublic fault db1 db2 user h
  · unfold putApprove
    cases authMiddleware jwt now token with
    | error res => exact ⟨rfl, h⟩
    | ok user => exact setStatus_samePublic sch fault db1 db2 user entryId _ h
  · intro hmatch
    refine ⟨login_samePublic sch bc jwt now fault db1 db2 body h hmatch, ?_⟩
    rw [login_store, login_store]
    exact h
  · intro hok
    rcases register_cases sch bc jwt now salt fault f2 db1 body with hr | hr | hr
    · rw [hr] at hok
      exact absurd (show (500 : Nat) = 200 from hok) (by decide)
    · rw [hr] at hok
      exact absurd (show (400 : Nat) = 200 from hok) (by decide)
    · obtain ⟨e, h0, name, r, m, _, _, _, _, _, _, hres⟩ := hr
      exact ⟨db1.users_id_seq, r, by rw [hres]⟩
  · intro hok
    rcases login_cases sch bc jwt now fault db1 body with hr | hr | ⟨u, hu, hr⟩
    · rw [hr] at hok
      exact absurd (show (500 : Nat) = 200 from hok) (by decide)
    · rw [hr] at hok
      exact absurd (show (400 : Nat) = 200 from hok) (by decide)
    · exact ⟨u, hu, by rw [hr]⟩

/-- Witness of C21: the store of the examples and the same store with other password
hashes, under the approvals list of the first manager, a registration and a login with a
wrong password. -/
theorem responses_hide_passwords_witness :
    (getApprovals toyJwt 0 none sampleDb (some "sarah-token")).1 =
        (getApprovals toyJwt 0 none sampleDbRehashed (some "sarah-token")).1 ∧
      (register decimalSchema toyBcrypt toyJwt 0 "salt" none none sampleDb
          [("email", JsVal.str "carol@company.com"), ("password", JsVal.str "pw"),
            ("role", JsVal.str "employee")]).1 =
        (register decimalSchema toyBcrypt toyJwt 0 "salt" none none sampleDbRehashed
          [("email", JsVal.str "carol@company.com"), ("password", JsVal.str "pw"),
            ("role", JsVal.str "employee")]).1 ∧
      (login decimalSchema toyBcrypt toyJwt 0 none sampleDb
          [("email", JsVal.str "employee1@company.com"), ("password", JsVal.str "pw")]).1 =
        (login decimalSchema toyBcrypt toyJwt 0 none sampleDbRehashed
          [("email", JsVal.str "employee1@company.com"), ("password", JsVal.str "pw")]).1 :=
  ⟨(responses_hide_passwords decimalSchema toyBcrypt toyJwt 0 "salt" none none sampleDb
      sampleDbRehashed (some "sarah-token") "1" [] ⟨by decide, rfl, rfl, rfl⟩).2.2.1.1,
    (responses_hide_passwords decimalSchema toyBcrypt toyJwt 0 "salt" none none sampleDb
      sampleDbRehashed none "1"
      [("email", JsVal.str "carol@company.com"), ("password", JsVal.str "pw"),
        ("role", JsVal.str "employee")] ⟨by decide, rfl, rfl, rfl⟩).2.2.2.2.1.1,
    ((responses_hide_passwords decimalSchema toyBcrypt toyJwt 0 "salt" none none sampleDb
      sampleDbRehashed none "1"
      [("email", JsVal.str "employee1@company.com"), ("password", JsVal.str "pw")]
      ⟨by decide, rfl, rfl, rfl⟩).2.2.2.2.2.1 rfl).1⟩

end TimesheetApp
